import Mathlib

/-!
# pysapcompress: buffer lifecycle around the SAP codec

A shallow embedding of `pysapcompress.cpp`: the two packet functions
`decompress_packet` / `compress_packet`, the two Python entry points
`pysapcompress_decompress` / `pysapcompress_compress`, and `error_string`.

* Bytes are `Fin 256`; C `int` / `SAP_INT` values are `Int`, with the 32-bit
  wrap-around written out where the source multiplies (`to_int32`).
* The heap is reduced to what the functions do with it: every `malloc` either
  succeeds or returns `NULL` (decided by an availability function of the request
  number), and the numbers of successful allocations and of `free` calls are counted.
* The status macros come from `hpa104CsObject.h`, and the codec engine
  `CsObjectInt` from the SAP sources; neither is part of this source tree, so both
  are parameters of every definition (`CsCodes`, `CsObjectInt`).
-/

namespace PySapCompress

/-- One `unsigned char` / `SAP_BYTE`. -/
abbrev Byte := Fin 256

/-- Source line 40: `#define MEMORY_ALLOC_FACTOR 10`. -/
def MEMORY_ALLOC_FACTOR : Int := 10

/-- Source line 49: `#define CS_E_MEMORY_ERROR -99`. -/
def CS_E_MEMORY_ERROR : Int := -99

/-- Largest value of a C `int` (32 bits). -/
def INT_MAX : Int := 2147483647

/-- Smallest value of a C `int` (32 bits). -/
def INT_MIN : Int := -2147483648

/-- Value of a 32-bit signed integer after an operation whose mathematical result is `x`
(two's complement wrap-around). -/
def to_int32 (x : Int) : Int := (x + 2147483648) % 4294967296 - 2147483648

/-- Conversion of an integer to `unsigned int` (32 bits). -/
def to_uint32 (x : Int) : Nat := (x % 4294967296).toNat

/-- Whether a Python integer fits the C `int` that the `"i"` / `"s#"` formats store into. -/
def fits_int (x : Int) : Bool := decide (INT_MIN ≤ x) && decide (x ≤ INT_MAX)

/-- The macros of `hpa104CsObject.h` that `pysapcompress.cpp` uses. The header is not part of
the source tree, so their values are a parameter. -/
structure CsCodes where
  CS_END_INBUFFER : Int
  CS_END_OUTBUFFER : Int
  CS_END_OF_STREAM : Int
  CS_IEND_OF_STREAM : Int
  CS_IEND_OUTBUFFER : Int
  CS_IEND_INBUFFER : Int
  CS_E_OUT_BUFFER_LEN : Int
  CS_E_IN_BUFFER_LEN : Int
  CS_E_NOSAVINGS : Int
  CS_E_INVALID_SUMLEN : Int
  CS_E_IN_EQU_OUT : Int
  CS_E_INVALID_ADDR : Int
  CS_E_FATAL : Int
  CS_E_BOTH_ZERO : Int
  CS_E_UNKNOWN_ALG : Int
  CS_E_UNKNOWN_TYPE : Int
  CS_E_FILENOTCOMPRESSED : Int
  CS_E_MAXBITS_TOO_BIG : Int
  CS_E_BAD_HUF_TREE : Int
  CS_E_NO_STACKMEM : Int
  CS_E_INVALIDCODE : Int
  CS_E_BADLENGTH : Int
  CS_E_STACK_OVERFLOW : Int
  CS_E_STACK_UNDERFLOW : Int
  CS_NOT_INITIALIZED : Int
  CS_INIT_COMPRESS : Int
  CS_INIT_DECOMPRESS : Int
  CS_LZC : Int
  CS_LZH : Int

/-- The `case` labels of the `switch` in `error_string`, in source order. A C compiler rejects
a `switch` with two equal labels, so for every header the source compiles against this list
has no duplicates. -/
def CsCodes.caseLabels (c : CsCodes) : List Int :=
  [c.CS_IEND_OF_STREAM, c.CS_IEND_OUTBUFFER, c.CS_IEND_INBUFFER, c.CS_E_OUT_BUFFER_LEN,
   c.CS_E_IN_BUFFER_LEN, c.CS_E_NOSAVINGS, c.CS_E_INVALID_SUMLEN, c.CS_E_IN_EQU_OUT,
   c.CS_E_INVALID_ADDR, c.CS_E_FATAL, c.CS_E_BOTH_ZERO, c.CS_E_UNKNOWN_ALG,
   c.CS_E_UNKNOWN_TYPE, c.CS_E_FILENOTCOMPRESSED, c.CS_E_MAXBITS_TOO_BIG, c.CS_E_BAD_HUF_TREE,
   c.CS_E_NO_STACKMEM, c.CS_E_INVALIDCODE, c.CS_E_BADLENGTH, c.CS_E_STACK_OVERFLOW,
   c.CS_E_STACK_UNDERFLOW, c.CS_NOT_INITIALIZED, c.CS_END_INBUFFER, c.CS_END_OUTBUFFER,
   c.CS_END_OF_STREAM]

/-- Source lines 53-86: `error_string`. -/
def error_string (c : CsCodes) (return_code : Int) : String :=
  if return_code = c.CS_IEND_OF_STREAM then "end of data (internal)"
  else if return_code = c.CS_IEND_OUTBUFFER then "end of output buffer"
  else if return_code = c.CS_IEND_INBUFFER then "end of input buffer"
  else if return_code = c.CS_E_OUT_BUFFER_LEN then "invalid output length"
  else if return_code = c.CS_E_IN_BUFFER_LEN then "invalid input length"
  else if return_code = c.CS_E_NOSAVINGS then "no savings"
  else if return_code = c.CS_E_INVALID_SUMLEN then "invalid len of stream"
  else if return_code = c.CS_E_IN_EQU_OUT then "inbuf == outbuf"
  else if return_code = c.CS_E_INVALID_ADDR then "inbuf == NULL,outbuf == NULL"
  else if return_code = c.CS_E_FATAL then "internal error !"
  else if return_code = c.CS_E_BOTH_ZERO then "inlen = outlen = 0"
  else if return_code = c.CS_E_UNKNOWN_ALG then "unknown algorithm"
  else if return_code = c.CS_E_UNKNOWN_TYPE then ""
  else if return_code = c.CS_E_FILENOTCOMPRESSED then "input not compressed"
  else if return_code = c.CS_E_MAXBITS_TOO_BIG then "maxbits to large"
  else if return_code = c.CS_E_BAD_HUF_TREE then "bad hufman tree"
  else if return_code = c.CS_E_NO_STACKMEM then "no stack memory in decomp"
  else if return_code = c.CS_E_INVALIDCODE then "invalid code"
  else if return_code = c.CS_E_BADLENGTH then "bad lengths"
  else if return_code = c.CS_E_STACK_OVERFLOW then "stack overflow in decomp"
  else if return_code = c.CS_E_STACK_UNDERFLOW then "stack underflow in decomp"
  else if return_code = c.CS_NOT_INITIALIZED then "storage not allocated"
  else if return_code = c.CS_END_INBUFFER then "end of input buffer"
  else if return_code = c.CS_END_OUTBUFFER then "end of output buffer"
  else if return_code = c.CS_END_OF_STREAM then "end of data"
  else "unknown error"

/-- Source line 91: the name under which the compression exception is created. -/
def compression_exception_name : String := "pysapcompress.CompressError"

/-- Source line 95: the name under which the decompression exception is created. -/
def decompression_exception_name : String := "pysapcompress.DecompressError"

/-! ## Heap bookkeeping -/

/-- What a call has done with the heap so far: `requests` counts calls of `malloc`,
`allocated` those that returned a buffer, `freed` the calls of `free`. -/
structure Mem where
  requests : Nat
  allocated : Nat
  freed : Nat
deriving DecidableEq

/-- The heap bookkeeping at function entry. -/
def Mem.init : Mem := ⟨0, 0, 0⟩

/-- The call `malloc(size)` for an `int` size. `avail k` says whether the `k`-th request of the
call is granted. A negative `int` converts to a `size_t` above `SIZE_MAX / 2`, more than an
object may occupy; such a request is taken to return `NULL`. -/
def malloc (avail : Nat → Bool) (m : Mem) (size : Int) : Bool × Mem :=
  if 0 ≤ size ∧ avail m.requests = true then
    (true, { m with requests := m.requests + 1, allocated := m.allocated + 1 })
  else
    (false, { m with requests := m.requests + 1 })

/-- The call `free(p)` for a buffer obtained from `malloc`. -/
def free (m : Mem) : Mem := { m with freed := m.freed + 1 }

/-- The copy loop `for (; i < i0 + k; i++) dst[i] = src[i];` with `k` iterations left.
`none` when an index falls outside `src` or `dst`. -/
def copy_loop (src : List Byte) : Nat → Nat → List Byte → Option (List Byte)
  | 0, _, dst => some dst
  | k + 1, i, dst =>
    match src[i]? with
    | none => none
    | some b => if i < dst.length then copy_loop src k (i + 1) (dst.set i b) else none

/-- Copy of the first `n` bytes of `src` into a buffer `dst` (source lines 142-143, 177-178,
229-230 and the `memcpy` of line 262). -/
def copy_bytes (src : List Byte) (n : Int) (dst : List Byte) : Option (List Byte) :=
  copy_loop src n.toNat 0 dst

/-- A buffer of `n` bytes right after `memset(buf, 0, n)`; also used for the contents of a
fresh `malloc` block, every byte of which the source overwrites before reading it. -/
def zeroed (n : Int) : List Byte := List.replicate n.toNat 0

/-! ## The codec engine -/

/-- What one call of the codec leaves behind: its return code, the two counters it stores
through `bytes_read` / `bytes_written`, and the contents of the output buffer. -/
structure CodecReturn where
  rt : Int
  bytes_read : Int
  bytes_written : Int
  bufout : List Byte
deriving DecidableEq

/-- The codec engine `class CsObjectInt` (declared in `hpa105CsObjInt.h`, not part of the
source tree). An object is constructed afresh in every packet function, so its two methods
are functions of their arguments. -/
structure CsObjectInt where
  CsCompr : (sumlen : Int) → (inbuf : List Byte) → (inlen : Int) → (outbuf : List Byte) →
    (outlen : Int) → (option : Int) → CodecReturn
  CsDecompr : (inbuf : List Byte) → (inlen : Int) → (outbuf : List Byte) →
    (outlen : Int) → (option : Int) → CodecReturn

/-- One recorded invocation of the codec with the arguments it received. -/
inductive CodecCall
  | compr (sumlen : Int) (inbuf : List Byte) (inlen : Int) (outbuf : List Byte)
      (outlen : Int) (option : Int)
  | decompr (inbuf : List Byte) (inlen : Int) (outbuf : List Byte) (outlen : Int)
      (option : Int)
deriving DecidableEq

/-- How a packet function ends: it returns `rt` having stored `out` (`none` is `NULL`) and
`out_length` through its two out-parameters, or it reads or writes outside a buffer. -/
inductive Outcome
  | returned (rt : Int) (out : Option (List Byte)) (out_length : Int)
  | undefined
deriving DecidableEq

/-- A finished call of a packet function: how it ended, the heap bookkeeping, and the codec
invocations it made, in order. -/
structure Run where
  outcome : Outcome
  mem : Mem
  calls : List CodecCall
deriving DecidableEq

/-- Source lines 169 and 254: the test for a successful codec return code. -/
def is_success (c : CsCodes) (rt : Int) : Bool :=
  decide (rt = c.CS_END_OF_STREAM) || decide (rt = c.CS_END_INBUFFER) ||
    decide (rt = c.CS_END_OUTBUFFER)

/-- Source lines 168-197 of `decompress_packet` and 253-281 of `compress_packet`, which are
the same statements: the interpretation of the codec's return `r`, with the heap bookkeeping
`m` and the codec calls made so far, and the value `len0` that `*out_length` holds when the
codec returns (the declared length in `decompress_packet`, `0` in `compress_packet`). -/
def interpret_result (c : CsCodes) (avail : Nat → Bool) (m : Mem) (calls : List CodecCall)
    (r : CodecReturn) (len0 : Int) : Run :=
  if is_success c r.rt = true then
    let a3 := malloc avail m r.bytes_written
    if a3.1 = true then
      match copy_bytes r.bufout r.bytes_written (zeroed r.bytes_written) with
      | none => ⟨.undefined, a3.2, calls⟩
      | some out => ⟨.returned r.rt (some out) r.bytes_written, free (free a3.2), calls⟩
    else ⟨.returned CS_E_MEMORY_ERROR none 0, free (free a3.2), calls⟩
  else ⟨.returned r.rt none len0, free (free m), calls⟩

/-- Source lines 116-198: `decompress_packet`. `out_length` is the value of `*out_length`
at entry. -/
def decompress_packet (c : CsCodes) (o : CsObjectInt) (avail : Nat → Bool)
    (in_ : Option (List Byte)) (in_length : Int) (out_length : Int) : Run :=
  match in_ with
  | none => ⟨.returned c.CS_E_INVALID_ADDR none out_length, Mem.init, []⟩
  | some src =>
    if in_length ≤ 0 then ⟨.returned c.CS_E_IN_BUFFER_LEN none out_length, Mem.init, []⟩
    else if out_length ≤ 0 then ⟨.returned c.CS_E_OUT_BUFFER_LEN none out_length, Mem.init, []⟩
    else
      let a1 := malloc avail Mem.init in_length
      if a1.1 = false then ⟨.returned CS_E_MEMORY_ERROR none out_length, a1.2, []⟩
      else
        match copy_bytes src in_length (zeroed in_length) with
        | none => ⟨.undefined, a1.2, []⟩
        | some bufin =>
          let bufin_length := in_length
          let bufout_length := out_length
          let a2 := malloc avail a1.2 bufout_length
          if a2.1 = false then ⟨.returned CS_E_MEMORY_ERROR none out_length, free a2.2, []⟩
          else
            let bufout := zeroed bufout_length
            let r := o.CsDecompr bufin bufin_length bufout bufout_length c.CS_INIT_DECOMPRESS
            let calls := [CodecCall.decompr bufin bufin_length bufout bufout_length
              c.CS_INIT_DECOMPRESS]
            interpret_result c avail a2.2 calls r out_length

/-- Source line 247: the `option` argument `CS_INIT_COMPRESS | algorithm`, an `unsigned int`
converted to the `SAP_INT` parameter. -/
def compress_option (c : CsCodes) (algorithm : Nat) : Int :=
  to_int32 ((to_uint32 c.CS_INIT_COMPRESS ||| algorithm : Nat) : Int)

/-- Source lines 202-282: `compress_packet`. `algorithm` is the `unsigned int` parameter. -/
def compress_packet (c : CsCodes) (o : CsObjectInt) (avail : Nat → Bool)
    (in_ : Option (List Byte)) (in_length : Int) (algorithm : Nat) : Run :=
  match in_ with
  | none => ⟨.returned c.CS_E_INVALID_ADDR none 0, Mem.init, []⟩
  | some src =>
    if in_length ≤ 0 then ⟨.returned c.CS_E_IN_BUFFER_LEN none 0, Mem.init, []⟩
    else
      let bufin_length := in_length
      let a1 := malloc avail Mem.init bufin_length
      if a1.1 = false then ⟨.returned CS_E_MEMORY_ERROR none 0, a1.2, []⟩
      else
        match copy_bytes src in_length (zeroed bufin_length) with
        | none => ⟨.undefined, a1.2, []⟩
        | some bufin =>
          let bufout_length := to_int32 (bufin_length * MEMORY_ALLOC_FACTOR)
          let a2 := malloc avail a1.2 bufout_length
          if a2.1 = false then ⟨.returned CS_E_MEMORY_ERROR none 0, free a2.2, []⟩
          else
            let bufout := zeroed bufout_length
            let r := o.CsCompr bufin_length bufin bufin_length bufout bufout_length
              (compress_option c algorithm)
            let calls := [CodecCall.compr bufin_length bufin bufin_length bufout bufout_length
              (compress_option c algorithm)]
            interpret_result c avail a2.2 calls r 0

/-! ## The Python entry points -/

/-- What a Python entry point hands back to the interpreter. -/
inductive PyResult
  /-- The `return NULL` after `PyArg_ParseTuple*` refused the arguments. -/
  | parse_failed
  /-- The call `PyErr_NoMemory()`. -/
  | no_memory
  /-- The call `PyErr_Format(exception, format, error_string(status))`: the exception raised
  and its message. -/
  | error (exception : String) (message : String)
  /-- The tuple of `Py_BuildValue("iis#", status, out_length, out, out_length)`; `s#` of a
  `NULL` pointer is `None`, written `none`. -/
  | value (status : Int) (length : Int) (bytes : Option (List Byte))
  /-- The packet function read or wrote outside a buffer. -/
  | undefined
deriving DecidableEq

/-- A finished call of a Python entry point. -/
structure PyRun where
  result : PyResult
  mem : Mem
  calls : List CodecCall
deriving DecidableEq

/-- The `s#` item of `Py_BuildValue`: a copy of `length` bytes at `out`, `None` for `NULL`. -/
def build_bytes (out : Option (List Byte)) (length : Int) : Option (List Byte) :=
  out.map (fun buf => buf.take length.toNat)

/-- Source line 312: the format `"Compression error (%s)"` applied to a description. -/
def compression_message (description : String) : String :=
  "Compression error (" ++ description ++ ")"

/-- Source line 343: the format `"Decompression error (%s)"` applied to a description. -/
def decompression_message (description : String) : String :=
  "Decompression error (" ++ description ++ ")"

/-- Source lines 305-317 and 336-346: the exception handling of the two entry points, which
differ in the exception object and the format only. -/
def py_result (c : CsCodes) (exception : String) (format : String → String) :
    Outcome → PyResult
  | .undefined => .undefined
  | .returned status out out_length =>
    if status < 0 then
      if status = CS_E_MEMORY_ERROR then .no_memory
      else .error exception (format (error_string c status))
    else .value status out_length (build_bytes out out_length)

/-- Source lines 286-318: `pysapcompress_compress`. `in_` is the byte string argument and
`algorithm` the algorithm argument (`ALG_LZC` when the caller leaves it out); parsing refuses
a string or an integer that does not fit a C `int`. -/
def pysapcompress_compress (c : CsCodes) (o : CsObjectInt) (avail : Nat → Bool)
    (in_ : List Byte) (algorithm : Int) : PyRun :=
  if fits_int in_.length && fits_int algorithm then
    let r := compress_packet c o avail (some in_) in_.length (to_uint32 algorithm)
    ⟨py_result c compression_exception_name compression_message r.outcome, r.mem, r.calls⟩
  else ⟨.parse_failed, Mem.init, []⟩

/-- Source lines 322-347: `pysapcompress_decompress`. `in_` is the byte string argument and
`out_length` the declared output length; parsing refuses a string or an integer that does not
fit a C `int`. -/
def pysapcompress_decompress (c : CsCodes) (o : CsObjectInt) (avail : Nat → Bool)
    (in_ : List Byte) (out_length : Int) : PyRun :=
  if fits_int in_.length && fits_int out_length then
    let r := decompress_packet c o avail (some in_) in_.length out_length
    ⟨py_result c decompression_exception_name decompression_message r.outcome, r.mem, r.calls⟩
  else ⟨.parse_failed, Mem.init, []⟩

/-! ## The codec engine as the specification describes it -/

/-- Modelled from the spec: the capacity contract of the codec engine (`CsObjectInt::CsCompr`
and `CsObjectInt::CsDecompr`, whose code is not part of the source tree). Section 3 requires
that "the codec must never write past the declared capacity": called with an output buffer of
`outlen` bytes, the engine leaves a buffer of the same size and reports at most `outlen` bytes
produced. -/
def CsObjectInt.WithinCapacity (o : CsObjectInt) : Prop :=
  (∀ sumlen inbuf inlen outbuf outlen option, (outbuf.length : Int) = outlen →
    (o.CsCompr sumlen inbuf inlen outbuf outlen option).bufout.length = outbuf.length ∧
    (o.CsCompr sumlen inbuf inlen outbuf outlen option).bytes_written ≤ outlen) ∧
  (∀ inbuf inlen outbuf outlen option, (outbuf.length : Int) = outlen →
    (o.CsDecompr inbuf inlen outbuf outlen option).bufout.length = outbuf.length ∧
    (o.CsDecompr inbuf inlen outbuf outlen option).bytes_written ≤ outlen)

/-- Modelled from the spec: the codec engine seen as "an abstract compress/decompress pair"
(section 8, round-trip property). `enc lzh b` is the compressed form of `b` under the
algorithm `CS_LZH` (`lzh = true`) or `CS_LZC` (`lzh = false`); `dec` recovers the data of a
compressed stream and is `none` on bytes that are not one. -/
structure AbstractCodec where
  enc : Bool → List Byte → List Byte
  dec : List Byte → Option (List Byte)

/-- Modelled from the spec: "decompression inverts compression" for an abstract pair. -/
def AbstractCodec.Inverts (k : AbstractCodec) : Prop :=
  ∀ lzh b, k.dec (k.enc lzh b) = some b

/-- Store `data` at the start of the output buffer `outbuf` of capacity `outlen`: the whole of
it with status `done` when it fits, otherwise the first `outlen` bytes with status `full`. -/
def emit (done full : Int) (data : List Byte) (inlen : Int) (outbuf : List Byte) (outlen : Int) :
    CodecReturn :=
  if (data.length : Int) ≤ outlen then
    ⟨done, inlen, data.length, data ++ outbuf.drop data.length⟩
  else
    ⟨full, inlen, outlen, data.take outlen.toNat ++ outbuf.drop outlen.toNat⟩

/-- Modelled from the spec: the single-call codec engine of section 6 built from an abstract
pair. `CsCompr` reads the algorithm selector from the mode flags and answers
`CS_E_UNKNOWN_ALG` for any other selector; `CsDecompr` answers `CS_E_FILENOTCOMPRESSED` on
bytes that are no compressed stream. Output that fits ends with `CS_END_OF_STREAM`, output
cut at the buffer edge with `CS_END_OUTBUFFER`. -/
def engine_of (c : CsCodes) (k : AbstractCodec) : CsObjectInt where
  CsCompr := fun _sumlen inbuf inlen outbuf outlen option =>
    if option = compress_option c (to_uint32 c.CS_LZC) then
      emit c.CS_END_OF_STREAM c.CS_END_OUTBUFFER (k.enc false (inbuf.take inlen.toNat))
        inlen outbuf outlen
    else if option = compress_option c (to_uint32 c.CS_LZH) then
      emit c.CS_END_OF_STREAM c.CS_END_OUTBUFFER (k.enc true (inbuf.take inlen.toNat))
        inlen outbuf outlen
    else ⟨c.CS_E_UNKNOWN_ALG, 0, 0, outbuf⟩
  CsDecompr := fun inbuf inlen outbuf outlen _option =>
    match k.dec (inbuf.take inlen.toNat) with
    | none => ⟨c.CS_E_FILENOTCOMPRESSED, 0, 0, outbuf⟩
    | some data => emit c.CS_END_OF_STREAM c.CS_END_OUTBUFFER data inlen outbuf outlen

/-- The round-trip property of section 8 for the input `b`, the algorithm identifier
`algorithm` and the factor `K`: `compress(b, algorithm)` returns bytes `z`, and
`decompress(z, len(b) * K)` returns `b` with its length and a success status. -/
def RoundTrip (c : CsCodes) (o : CsObjectInt) (avail : Nat → Bool) (b : List Byte)
    (algorithm : Int) (K : Nat) : Prop :=
  ∃ s len z, (pysapcompress_compress c o avail b algorithm).result = .value s len (some z) ∧
    ∃ s2, is_success c s2 = true ∧
      (pysapcompress_decompress c o avail z ((b.length : Int) * K)).result
        = .value s2 b.length (some b)

/-! ## Concrete instances used to evaluate the definitions -/

/-- A concrete header, with the values of SAP's `hpa104CsObject.h`; the statements below use
it only to evaluate the definitions on examples. -/
def sapCodes : CsCodes where
  CS_END_INBUFFER := 3
  CS_END_OUTBUFFER := 2
  CS_END_OF_STREAM := 1
  CS_IEND_OF_STREAM := -1
  CS_IEND_OUTBUFFER := -2
  CS_IEND_INBUFFER := -3
  CS_E_OUT_BUFFER_LEN := -10
  CS_E_IN_BUFFER_LEN := -11
  CS_E_NOSAVINGS := -12
  CS_E_INVALID_SUMLEN := -13
  CS_E_IN_EQU_OUT := -14
  CS_E_INVALID_ADDR := -15
  CS_E_FATAL := -19
  CS_E_BOTH_ZERO := -20
  CS_E_UNKNOWN_ALG := -21
  CS_E_UNKNOWN_TYPE := -22
  CS_E_FILENOTCOMPRESSED := -50
  CS_E_MAXBITS_TOO_BIG := -51
  CS_E_BAD_HUF_TREE := -52
  CS_E_NO_STACKMEM := -53
  CS_E_INVALIDCODE := -54
  CS_E_BADLENGTH := -55
  CS_E_STACK_OVERFLOW := -60
  CS_E_STACK_UNDERFLOW := -61
  CS_NOT_INITIALIZED := -71
  CS_INIT_COMPRESS := 1
  CS_INIT_DECOMPRESS := 1
  CS_LZC := 0
  CS_LZH := 2

/-- An engine whose two methods always answer the status `rt` with `written` bytes produced and
leave the output buffer as it was. -/
def const_engine (rt written : Int) : CsObjectInt where
  CsCompr := fun _ _ inlen outbuf _ _ => ⟨rt, inlen, written, outbuf⟩
  CsDecompr := fun _ inlen outbuf _ _ => ⟨rt, inlen, written, outbuf⟩

/-- An abstract pair that stores the data behind one byte naming the algorithm. -/
def store_codec : AbstractCodec where
  enc := fun lzh b => (if lzh then 2 else 1) :: b
  dec := fun z => z.tail?

/-- The store engine under the macro values of `sapCodes`. -/
def store_engine : CsObjectInt := engine_of sapCodes store_codec

/-- An allocator that grants every request. -/
def always : Nat → Bool := fun _ => true

/-- An allocator that grants every request except the `k`-th. -/
def all_but (k : Nat) : Nat → Bool := fun i => decide (i ≠ k)

/-- The byte `0x41`. -/
def byteA : Byte := 0x41

/-! ## Lemmas on the helpers -/

theorem copy_loop_append (src : List Byte) :
    ∀ (k : Nat) (pre rest : List Byte), pre.length + k ≤ src.length → k ≤ rest.length →
      copy_loop src k pre.length (pre ++ rest)
        = some (pre ++ (src.drop pre.length).take k ++ rest.drop k) := by
  intro k
  induction k with
  | zero => intro pre rest _ _; simp [copy_loop]
  | succ k ih =>
    intro pre rest hs hd
    have hi : pre.length < src.length := by omega
    cases rest with
    | nil => simp at hd
    | cons r rest =>
      have hset : (pre ++ r :: rest).set pre.length src[pre.length]
          = (pre ++ [src[pre.length]]) ++ rest := by
        rw [List.set_append_right _ _ (Nat.le_refl _)]
        simp
      rw [copy_loop, List.getElem?_eq_getElem hi]
      simp only [List.length_append, List.length_cons, Nat.lt_add_right_iff_pos,
        Nat.zero_lt_succ, if_true]
      rw [hset]
      have hlen : (pre ++ [src[pre.length]]).length = pre.length + 1 := by simp
      have := ih (pre ++ [src[pre.length]]) rest (by rw [hlen]; omega)
        (by simpa using hd)
      rw [hlen] at this
      rw [this, List.drop_eq_getElem_cons hi, List.take_succ_cons]
      simp [-List.getElem_cons_drop]

/-- Copying `n` bytes out of a buffer that holds at least `n` yields its first `n` bytes. -/
theorem copy_bytes_ok (src : List Byte) (n : Int) (h : n.toNat ≤ src.length) :
    copy_bytes src n (zeroed n) = some (src.take n.toNat) := by
  have := copy_loop_append src n.toNat [] (zeroed n) (by simpa using h) (by simp [zeroed])
  simpa [copy_bytes, zeroed] using this

theorem copy_loop_some (src : List Byte) :
    ∀ (k i : Nat) (dst out : List Byte), copy_loop src k i dst = some out →
      k = 0 ∨ i + k ≤ src.length := by
  intro k
  induction k with
  | zero => intro i dst out _; exact Or.inl rfl
  | succ k ih =>
    intro i dst out h
    right
    rw [copy_loop] at h
    cases hb : src[i]? with
    | none => simp [hb] at h
    | some b =>
      have hi : i < src.length := by
        rcases Nat.lt_or_ge i src.length with hlt | hge
        · exact hlt
        · rw [List.getElem?_eq_none hge] at hb
          cases hb
      simp only [hb] at h
      split at h
      · rcases ih _ _ _ h with h0 | h1
        · omega
        · omega
      · cases h

/-- A copy that completes stayed inside the source buffer. -/
theorem copy_bytes_some (src : List Byte) (n : Int) (out : List Byte)
    (h : copy_bytes src n (zeroed n) = some out) :
    n.toNat ≤ src.length ∧ out = src.take n.toNat := by
  have hb : n.toNat ≤ src.length := by
    rcases copy_loop_some src n.toNat 0 (zeroed n) out h with h0 | h1
    · omega
    · omega
  refine ⟨hb, ?_⟩
  rw [copy_bytes_ok src n hb] at h
  exact (Option.some.inj h).symm

theorem malloc_granted (avail : Nat → Bool) (m : Mem) (size : Int) (h0 : 0 ≤ size)
    (ha : avail m.requests = true) :
    malloc avail m size = (true, ⟨m.requests + 1, m.allocated + 1, m.freed⟩) := by
  simp [malloc, h0, ha]

theorem malloc_refused (avail : Nat → Bool) (m : Mem) (size : Int)
    (h : avail m.requests = false ∨ size < 0) :
    malloc avail m size = (false, ⟨m.requests + 1, m.allocated, m.freed⟩) := by
  rcases h with h | h
  · simp [malloc, h]
  · have : ¬ (0 ≤ size) := by omega
    simp [malloc, this]

theorem is_success_iff (c : CsCodes) (rt : Int) :
    is_success c rt = true ↔
      (rt = c.CS_END_OF_STREAM ∨ rt = c.CS_END_INBUFFER ∨ rt = c.CS_END_OUTBUFFER) := by
  simp [is_success, or_assoc]

theorem is_success_eq_false_iff (c : CsCodes) (rt : Int) :
    is_success c rt = false ↔
      (rt ≠ c.CS_END_OF_STREAM ∧ rt ≠ c.CS_END_INBUFFER ∧ rt ≠ c.CS_END_OUTBUFFER) := by
  simp [is_success, and_assoc]

/-! ## Lemmas on the interpretation of the codec's return -/

theorem interpret_calls (c : CsCodes) (avail : Nat → Bool) (m : Mem) (calls : List CodecCall)
    (r : CodecReturn) (len0 : Int) :
    (interpret_result c avail m calls r len0).calls = calls := by
  unfold interpret_result
  split
  · simp only []
    split
    · split <;> rfl
    · rfl
  · rfl

theorem interpret_failure (c : CsCodes) (avail : Nat → Bool) (m : Mem)
    (calls : List CodecCall) (r : CodecReturn) (len0 : Int) (h : is_success c r.rt = false) :
    interpret_result c avail m calls r len0
      = ⟨.returned r.rt none len0, ⟨m.requests, m.allocated, m.freed + 2⟩, calls⟩ := by
  simp [interpret_result, h, free]

theorem interpret_success (c : CsCodes) (avail : Nat → Bool) (m : Mem)
    (calls : List CodecCall) (r : CodecReturn) (len0 : Int) (h : is_success c r.rt = true)
    (ha : avail m.requests = true) (h0 : 0 ≤ r.bytes_written)
    (hfit : r.bytes_written.toNat ≤ r.bufout.length) :
    interpret_result c avail m calls r len0
      = ⟨.returned r.rt (some (r.bufout.take r.bytes_written.toNat)) r.bytes_written,
          ⟨m.requests + 1, m.allocated + 1, m.freed + 2⟩, calls⟩ := by
  simp [interpret_result, h, malloc_granted avail m _ h0 ha, copy_bytes_ok _ _ hfit, free]

theorem interpret_no_memory (c : CsCodes) (avail : Nat → Bool) (m : Mem)
    (calls : List CodecCall) (r : CodecReturn) (len0 : Int) (h : is_success c r.rt = true)
    (ha : avail m.requests = false ∨ r.bytes_written < 0) :
    interpret_result c avail m calls r len0
      = ⟨.returned CS_E_MEMORY_ERROR none 0, ⟨m.requests + 1, m.allocated, m.freed + 2⟩,
          calls⟩ := by
  simp [interpret_result, h, malloc_refused avail m _ ha, free]

/-- Whatever the codec answers, a result buffer comes only with a success status, holds the
reported number of bytes, and these are the first bytes of the codec's output buffer. -/
theorem interpret_buffer (c : CsCodes) (avail : Nat → Bool) (m : Mem)
    (calls : List CodecCall) (r : CodecReturn) (len0 : Int) (rt : Int) (out : List Byte)
    (len : Int)
    (h : (interpret_result c avail m calls r len0).outcome = .returned rt (some out) len) :
    is_success c r.rt = true ∧ rt = r.rt ∧ len = r.bytes_written ∧ 0 ≤ len ∧
      len.toNat ≤ r.bufout.length ∧ out = r.bufout.take len.toNat := by
  unfold interpret_result at h
  split at h
  · rename_i hs
    simp only [] at h
    split at h
    · rename_i ha
      have h0 : 0 ≤ r.bytes_written := by
        by_contra hneg
        rw [malloc_refused avail m _ (Or.inr (by omega))] at ha
        cases ha
      split at h
      · cases h
      · rename_i buf hc
        obtain ⟨hb, hbuf⟩ := copy_bytes_some _ _ _ hc
        simp only [Outcome.returned.injEq, Option.some.injEq] at h
        obtain ⟨h1, h2, h3⟩ := h
        subst h1 h2 h3
        exact ⟨hs, rfl, rfl, h0, hb, hbuf⟩
    · simp at h
  · simp at h

/-- Heap balance of the interpretation: started with two live buffers, it ends with none
unless it returns a result buffer, which stays allocated. -/
theorem interpret_balance (c : CsCodes) (avail : Nat → Bool) (m : Mem)
    (calls : List CodecCall) (r : CodecReturn) (len0 : Int) (rt : Int) (out : Option (List Byte))
    (len : Int)
    (h : (interpret_result c avail m calls r len0).outcome = .returned rt out len) :
    (interpret_result c avail m calls r len0).mem.freed = m.freed + 2 ∧
    (interpret_result c avail m calls r len0).mem.allocated
      = m.allocated + (if out.isSome then 1 else 0) := by
  unfold interpret_result at h ⊢
  split
  · rename_i hs
    simp only [hs, if_true] at h
    by_cases ha : (malloc avail m r.bytes_written).1 = true
    · simp only [ha, if_true] at h ⊢
      have hm : (malloc avail m r.bytes_written).2
          = ⟨m.requests + 1, m.allocated + 1, m.freed⟩ := by
        unfold malloc at ha ⊢
        split
        · rfl
        · rename_i hno
          simp [hno] at ha
      split
      · rename_i hc
        simp [hc] at h
      · rename_i buf hc
        simp only [hc, Outcome.returned.injEq] at h
        obtain ⟨_, h2, _⟩ := h
        subst h2
        simp [hm, free]
    · simp only [ha] at h ⊢
      have hm : (malloc avail m r.bytes_written).2
          = ⟨m.requests + 1, m.allocated, m.freed⟩ := by
        unfold malloc at ha ⊢
        split
        · rename_i hyes
          simp [hyes] at ha
        · rfl
      simp only [Bool.false_eq_true, if_false, Outcome.returned.injEq] at h
      obtain ⟨_, h2, _⟩ := h
      subst h2
      simp [hm, free]
  · rename_i hs
    simp only [hs, Bool.false_eq_true, if_false, Outcome.returned.injEq] at h
    obtain ⟨_, h2, _⟩ := h
    subst h2
    simp [free]

/-! ## Lemmas on the packet functions -/

/-- Past validation and the two allocations, `compress_packet` is the interpretation of one
codec call. -/
theorem compress_packet_reaches (c : CsCodes) (o : CsObjectInt) (avail : Nat → Bool)
    (src : List Byte) (n : Int) (algorithm : Nat) (hn : 0 < n) (hsrc : n.toNat ≤ src.length)
    (h0 : avail 0 = true) (h1 : avail 1 = true)
    (hcap : 0 ≤ to_int32 (n * MEMORY_ALLOC_FACTOR)) :
    compress_packet c o avail (some src) n algorithm
      = interpret_result c avail ⟨2, 2, 0⟩
          [CodecCall.compr n (src.take n.toNat) n (zeroed (to_int32 (n * MEMORY_ALLOC_FACTOR)))
            (to_int32 (n * MEMORY_ALLOC_FACTOR)) (compress_option c algorithm)]
          (o.CsCompr n (src.take n.toNat) n (zeroed (to_int32 (n * MEMORY_ALLOC_FACTOR)))
            (to_int32 (n * MEMORY_ALLOC_FACTOR)) (compress_option c algorithm)) 0 := by
  have hn2 : ¬ n ≤ 0 := by omega
  have a1 : malloc avail Mem.init n = (true, ⟨1, 1, 0⟩) :=
    malloc_granted avail Mem.init n (by omega) h0
  have a2 : malloc avail ⟨1, 1, 0⟩ (to_int32 (n * MEMORY_ALLOC_FACTOR)) = (true, ⟨2, 2, 0⟩) :=
    malloc_granted avail ⟨1, 1, 0⟩ _ hcap h1
  simp [compress_packet, hn2, a1, a2, copy_bytes_ok src n hsrc]

/-- Past validation and the two allocations, `decompress_packet` is the interpretation of one
codec call. -/
theorem decompress_packet_reaches (c : CsCodes) (o : CsObjectInt) (avail : Nat → Bool)
    (src : List Byte) (n m : Int) (hn : 0 < n) (hm : 0 < m) (hsrc : n.toNat ≤ src.length)
    (h0 : avail 0 = true) (h1 : avail 1 = true) :
    decompress_packet c o avail (some src) n m
      = interpret_result c avail ⟨2, 2, 0⟩
          [CodecCall.decompr (src.take n.toNat) n (zeroed m) m c.CS_INIT_DECOMPRESS]
          (o.CsDecompr (src.take n.toNat) n (zeroed m) m c.CS_INIT_DECOMPRESS) m := by
  have hn2 : ¬ n ≤ 0 := by omega
  have hm2 : ¬ m ≤ 0 := by omega
  have a1 : malloc avail Mem.init n = (true, ⟨1, 1, 0⟩) :=
    malloc_granted avail Mem.init n (by omega) h0
  have a2 : malloc avail ⟨1, 1, 0⟩ m = (true, ⟨2, 2, 0⟩) :=
    malloc_granted avail ⟨1, 1, 0⟩ _ (by omega) h1
  simp [decompress_packet, hn2, hm2, a1, a2, copy_bytes_ok src n hsrc]

theorem compress_packet_calls_le (c : CsCodes) (o : CsObjectInt) (avail : Nat → Bool)
    (in_ : Option (List Byte)) (n : Int) (algorithm : Nat) :
    (compress_packet c o avail in_ n algorithm).calls.length ≤ 1 := by
  cases in_ with
  | none => simp [compress_packet]
  | some src =>
    unfold compress_packet
    by_cases hn : n ≤ 0
    · simp [hn]
    · by_cases a1 : (malloc avail Mem.init n).1 = false
      · simp [hn, a1]
      · cases hc : copy_bytes src n (zeroed n) with
        | none => simp [hn, a1, hc]
        | some bufin =>
          by_cases a2 : (malloc avail (malloc avail Mem.init n).2
              (to_int32 (n * MEMORY_ALLOC_FACTOR))).1 = false
          · simp [hn, a1, hc, a2]
          · simp [hn, a1, hc, a2, interpret_calls]

theorem decompress_packet_calls_le (c : CsCodes) (o : CsObjectInt) (avail : Nat → Bool)
    (in_ : Option (List Byte)) (n m : Int) :
    (decompress_packet c o avail in_ n m).calls.length ≤ 1 := by
  cases in_ with
  | none => simp [decompress_packet]
  | some src =>
    unfold decompress_packet
    by_cases hn : n ≤ 0
    · simp [hn]
    · by_cases hm : m ≤ 0
      · simp [hn, hm]
      · by_cases a1 : (malloc avail Mem.init n).1 = false
        · simp [hn, hm, a1]
        · cases hc : copy_bytes src n (zeroed n) with
          | none => simp [hn, hm, a1, hc]
          | some bufin =>
            by_cases a2 : (malloc avail (malloc avail Mem.init n).2 m).1 = false
            · simp [hn, hm, a1, hc, a2]
            · simp [hn, hm, a1, hc, a2, interpret_calls]

/-- The description of a status that is a `case` label, read off a header without duplicate
labels: here for the three codes the statements below name. -/
theorem error_string_of_labels (c : CsCodes) (h : c.caseLabels.Nodup) :
    error_string c c.CS_E_OUT_BUFFER_LEN = "invalid output length" ∧
    error_string c c.CS_E_IN_BUFFER_LEN = "invalid input length" ∧
    error_string c c.CS_E_UNKNOWN_ALG = "unknown algorithm" := by
  have hp := List.pairwise_iff_getElem.mp h
  have hlen : c.caseLabels.length = 25 := rfl
  refine ⟨?_, ?_, ?_⟩
  · have e0 := hp 0 3 (by rw [hlen]; decide) (by rw [hlen]; decide) (by decide)
    have e1 := hp 1 3 (by rw [hlen]; decide) (by rw [hlen]; decide) (by decide)
    have e2 := hp 2 3 (by rw [hlen]; decide) (by rw [hlen]; decide) (by decide)
    simp only [CsCodes.caseLabels, List.getElem_cons_succ, List.getElem_cons_zero] at e0 e1 e2
    simp [error_string, Ne.symm e0, Ne.symm e1, Ne.symm e2]
  · have e0 := hp 0 4 (by rw [hlen]; decide) (by rw [hlen]; decide) (by decide)
    have e1 := hp 1 4 (by rw [hlen]; decide) (by rw [hlen]; decide) (by decide)
    have e2 := hp 2 4 (by rw [hlen]; decide) (by rw [hlen]; decide) (by decide)
    have e3 := hp 3 4 (by rw [hlen]; decide) (by rw [hlen]; decide) (by decide)
    simp only [CsCodes.caseLabels, List.getElem_cons_succ, List.getElem_cons_zero] at e0 e1 e2 e3
    simp [error_string, Ne.symm e0, Ne.symm e1, Ne.symm e2, Ne.symm e3]
  · have e0 := hp 0 11 (by rw [hlen]; decide) (by rw [hlen]; decide) (by decide)
    have e1 := hp 1 11 (by rw [hlen]; decide) (by rw [hlen]; decide) (by decide)
    have e2 := hp 2 11 (by rw [hlen]; decide) (by rw [hlen]; decide) (by decide)
    have e3 := hp 3 11 (by rw [hlen]; decide) (by rw [hlen]; decide) (by decide)
    have e4 := hp 4 11 (by rw [hlen]; decide) (by rw [hlen]; decide) (by decide)
    have e5 := hp 5 11 (by rw [hlen]; decide) (by rw [hlen]; decide) (by decide)
    have e6 := hp 6 11 (by rw [hlen]; decide) (by rw [hlen]; decide) (by decide)
    have e7 := hp 7 11 (by rw [hlen]; decide) (by rw [hlen]; decide) (by decide)
    have e8 := hp 8 11 (by rw [hlen]; decide) (by rw [hlen]; decide) (by decide)
    have e9 := hp 9 11 (by rw [hlen]; decide) (by rw [hlen]; decide) (by decide)
    have e10 := hp 10 11 (by rw [hlen]; decide) (by rw [hlen]; decide) (by decide)
    simp only [CsCodes.caseLabels, List.getElem_cons_succ, List.getElem_cons_zero] at e0 e1 e2 e3 e4 e5 e6 e7 e8 e9 e10
    simp [error_string, Ne.symm e0, Ne.symm e1, Ne.symm e2, Ne.symm e3, Ne.symm e4, Ne.symm e5, Ne.symm e6, Ne.symm e7, Ne.symm e8, Ne.symm e9, Ne.symm e10]

theorem pysapcompress_compress_parsed (c : CsCodes) (o : CsObjectInt) (avail : Nat → Bool)
    (b : List Byte) (algorithm : Int) (hb : (b.length : Int) ≤ INT_MAX)
    (ha : fits_int algorithm = true) :
    pysapcompress_compress c o avail b algorithm
      = ⟨py_result c compression_exception_name compression_message
           (compress_packet c o avail (some b) b.length (to_uint32 algorithm)).outcome,
         (compress_packet c o avail (some b) b.length (to_uint32 algorithm)).mem,
         (compress_packet c o avail (some b) b.length (to_uint32 algorithm)).calls⟩ := by
  have h1 : fits_int (b.length : Int) = true := by
    have : INT_MIN ≤ (b.length : Int) := by unfold INT_MIN; omega
    simp [fits_int, hb, this]
  simp [pysapcompress_compress, h1, ha]

theorem pysapcompress_decompress_parsed (c : CsCodes) (o : CsObjectInt) (avail : Nat → Bool)
    (b : List Byte) (m : Int) (hb : (b.length : Int) ≤ INT_MAX) (hm : fits_int m = true) :
    pysapcompress_decompress c o avail b m
      = ⟨py_result c decompression_exception_name decompression_message
           (decompress_packet c o avail (some b) b.length m).outcome,
         (decompress_packet c o avail (some b) b.length m).mem,
         (decompress_packet c o avail (some b) b.length m).calls⟩ := by
  have h1 : fits_int (b.length : Int) = true := by
    have : INT_MIN ≤ (b.length : Int) := by unfold INT_MIN; omega
    simp [fits_int, hb, this]
  simp [pysapcompress_decompress, h1, hm]

theorem py_result_negative (c : CsCodes) (exception : String) (format : String → String)
    (s : Int) (out : Option (List Byte)) (len : Int) (hs : s < 0) :
    py_result c exception format (.returned s out len)
      = if s = CS_E_MEMORY_ERROR then .no_memory
        else .error exception (format (error_string c s)) := by
  simp [py_result, hs]

theorem py_result_nonnegative (c : CsCodes) (exception : String) (format : String → String)
    (s : Int) (out : Option (List Byte)) (len : Int) (hs : 0 ≤ s) :
    py_result c exception format (.returned s out len)
      = .value s len (build_bytes out len) := by
  have : ¬ s < 0 := by omega
  simp [py_result, this]

/-- The three ways `compress_packet` can go on a non-null input: it leaves before the codec
call with no buffer and a balanced heap; or the input copy runs past the caller's buffer; or
validation and both allocations succeed, in which case `compress_packet_reaches` applies. -/
theorem compress_packet_shape (c : CsCodes) (o : CsObjectInt) (avail : Nat → Bool)
    (src : List Byte) (n : Int) (algorithm : Nat) :
    (∃ rt, (compress_packet c o avail (some src) n algorithm).outcome = .returned rt none 0 ∧
      (compress_packet c o avail (some src) n algorithm).calls = [] ∧
      (compress_packet c o avail (some src) n algorithm).mem.freed
        = (compress_packet c o avail (some src) n algorithm).mem.allocated) ∨
    ((compress_packet c o avail (some src) n algorithm).outcome = .undefined ∧
      ¬ n.toNat ≤ src.length) ∨
    (0 < n ∧ n.toNat ≤ src.length ∧ avail 0 = true ∧ avail 1 = true ∧
      0 ≤ to_int32 (n * MEMORY_ALLOC_FACTOR)) := by
  by_cases hn : n ≤ 0
  · left
    refine ⟨c.CS_E_IN_BUFFER_LEN, ?_⟩
    simp [compress_packet, hn, Mem.init]
  by_cases h0 : avail 0 = true
  swap
  · left
    have a1 : malloc avail Mem.init n = (false, ⟨1, 0, 0⟩) :=
      malloc_refused avail Mem.init n (Or.inl (by simpa using h0))
    refine ⟨CS_E_MEMORY_ERROR, ?_⟩
    simp [compress_packet, hn, a1]
  have a1 : malloc avail Mem.init n = (true, ⟨1, 1, 0⟩) :=
    malloc_granted avail Mem.init n (by omega) h0
  by_cases hsrc : n.toNat ≤ src.length
  swap
  · right; left
    refine ⟨?_, hsrc⟩
    cases hc : copy_bytes src n (zeroed n) with
    | none => simp [compress_packet, hn, a1, hc]
    | some buf => exact absurd (copy_bytes_some src n buf hc).1 hsrc
  by_cases h1 : avail 1 = true ∧ 0 ≤ to_int32 (n * MEMORY_ALLOC_FACTOR)
  · right; right
    exact ⟨by omega, hsrc, h0, h1.1, h1.2⟩
  · left
    have a2 : malloc avail ⟨1, 1, 0⟩ (to_int32 (n * MEMORY_ALLOC_FACTOR))
        = (false, ⟨2, 1, 0⟩) := by
      apply malloc_refused
      by_cases h : avail 1 = true
      · right
        have hlt : ¬ 0 ≤ to_int32 (n * MEMORY_ALLOC_FACTOR) := fun h' => h1 ⟨h, h'⟩
        omega
      · left
        simpa using h
    refine ⟨CS_E_MEMORY_ERROR, ?_⟩
    simp [compress_packet, hn, a1, a2, copy_bytes_ok src n hsrc, free]

/-- The three ways `decompress_packet` can go on a non-null input, as for
`compress_packet`. -/
theorem decompress_packet_shape (c : CsCodes) (o : CsObjectInt) (avail : Nat → Bool)
    (src : List Byte) (n m : Int) :
    (∃ rt, (decompress_packet c o avail (some src) n m).outcome = .returned rt none m ∧
      (decompress_packet c o avail (some src) n m).calls = [] ∧
      (decompress_packet c o avail (some src) n m).mem.freed
        = (decompress_packet c o avail (some src) n m).mem.allocated) ∨
    ((decompress_packet c o avail (some src) n m).outcome = .undefined ∧
      ¬ n.toNat ≤ src.length) ∨
    (0 < n ∧ 0 < m ∧ n.toNat ≤ src.length ∧ avail 0 = true ∧ avail 1 = true) := by
  by_cases hn : n ≤ 0
  · left
    refine ⟨c.CS_E_IN_BUFFER_LEN, ?_⟩
    simp [decompress_packet, hn, Mem.init]
  by_cases hm : m ≤ 0
  · left
    refine ⟨c.CS_E_OUT_BUFFER_LEN, ?_⟩
    simp [decompress_packet, hn, hm, Mem.init]
  by_cases h0 : avail 0 = true
  swap
  · left
    have a1 : malloc avail Mem.init n = (false, ⟨1, 0, 0⟩) :=
      malloc_refused avail Mem.init n (Or.inl (by simpa using h0))
    refine ⟨CS_E_MEMORY_ERROR, ?_⟩
    simp [decompress_packet, hn, hm, a1]
  have a1 : malloc avail Mem.init n = (true, ⟨1, 1, 0⟩) :=
    malloc_granted avail Mem.init n (by omega) h0
  by_cases hsrc : n.toNat ≤ src.length
  swap
  · right; left
    refine ⟨?_, hsrc⟩
    cases hc : copy_bytes src n (zeroed n) with
    | none => simp [decompress_packet, hn, hm, a1, hc]
    | some buf => exact absurd (copy_bytes_some src n buf hc).1 hsrc
  by_cases h1 : avail 1 = true
  · right; right
    exact ⟨by omega, by omega, hsrc, h0, h1⟩
  · left
    have a2 : malloc avail ⟨1, 1, 0⟩ m = (false, ⟨2, 1, 0⟩) :=
      malloc_refused avail ⟨1, 1, 0⟩ m (Or.inl (by simpa using h1))
    refine ⟨CS_E_MEMORY_ERROR, ?_⟩
    simp [decompress_packet, hn, hm, a1, a2, copy_bytes_ok src n hsrc, free]

/-- Under the capacity contract the interpretation never reads outside the output buffer. -/
theorem interpret_defined (c : CsCodes) (avail : Nat → Bool) (m : Mem)
    (calls : List CodecCall) (r : CodecReturn) (len0 : Int) (cap : Int)
    (hlen : (r.bufout.length : Int) = cap) (hw : r.bytes_written ≤ cap) :
    (interpret_result c avail m calls r len0).outcome ≠ .undefined := by
  have hfit : r.bytes_written.toNat ≤ r.bufout.length := by omega
  unfold interpret_result
  split
  · simp only []
    split
    · rw [copy_bytes_ok _ _ hfit]
      simp
    · simp
  · simp

theorem zeroed_length (n : Int) (h : 0 ≤ n) : ((zeroed n).length : Int) = n := by
  simp [zeroed, Int.toNat_of_nonneg h]

/-! ## C3: validation comes first -/

/-- C3: validation precedes everything else and never reaches the codec. `decompress_packet`
returns `CS_E_INVALID_ADDR` for a null input, otherwise `CS_E_IN_BUFFER_LEN` when
`in_length <= 0`, otherwise `CS_E_OUT_BUFFER_LEN` when the declared output length is `<= 0`;
`compress_packet` returns `CS_E_INVALID_ADDR` for a null input and otherwise
`CS_E_IN_BUFFER_LEN` when `in_length <= 0`. In each case no codec call is made, `malloc` is
never called and `*out` is `NULL`. For every non-empty `b`, `decompress(b, 0)` and
`decompress(b, -1)` stop at the output-length check, which under a header where that code is
negative, differs from `-99` and labels its own `case` raises `DecompressError` with the
description "invalid output length". -/
theorem validation_precedes_codec (c : CsCodes) (o : CsObjectInt) (avail : Nat → Bool) :
    (∀ n m, decompress_packet c o avail none n m
        = ⟨.returned c.CS_E_INVALID_ADDR none m, Mem.init, []⟩) ∧
    (∀ src n m, n ≤ 0 → decompress_packet c o avail (some src) n m
        = ⟨.returned c.CS_E_IN_BUFFER_LEN none m, Mem.init, []⟩) ∧
    (∀ src n m, 0 < n → m ≤ 0 → decompress_packet c o avail (some src) n m
        = ⟨.returned c.CS_E_OUT_BUFFER_LEN none m, Mem.init, []⟩) ∧
    (∀ n algorithm, compress_packet c o avail none n algorithm
        = ⟨.returned c.CS_E_INVALID_ADDR none 0, Mem.init, []⟩) ∧
    (∀ src n algorithm, n ≤ 0 → compress_packet c o avail (some src) n algorithm
        = ⟨.returned c.CS_E_IN_BUFFER_LEN none 0, Mem.init, []⟩) ∧
    (∀ b m, b ≠ [] → (b.length : Int) ≤ INT_MAX → m = 0 ∨ m = -1 →
        decompress_packet c o avail (some b) b.length m
          = ⟨.returned c.CS_E_OUT_BUFFER_LEN none m, Mem.init, []⟩ ∧
        (c.caseLabels.Nodup → c.CS_E_OUT_BUFFER_LEN < 0 →
          c.CS_E_OUT_BUFFER_LEN ≠ CS_E_MEMORY_ERROR →
          pysapcompress_decompress c o avail b m
            = ⟨.error "pysapcompress.DecompressError"
                "Decompression error (invalid output length)", Mem.init, []⟩)) := by
  have hout : ∀ (src : List Byte) (n m : Int), 0 < n → m ≤ 0 →
      decompress_packet c o avail (some src) n m
        = ⟨.returned c.CS_E_OUT_BUFFER_LEN none m, Mem.init, []⟩ := by
    intro src n m hn hm
    have hn2 : ¬ n ≤ 0 := by omega
    simp [decompress_packet, hn2, hm]
  refine ⟨?_, ?_, hout, ?_, ?_, ?_⟩
  · intro n m; simp [decompress_packet]
  · intro src n m hn; simp [decompress_packet, hn]
  · intro n algorithm; simp [compress_packet]
  · intro src n algorithm hn; simp [compress_packet, hn]
  · intro b m hb hlen hm
    have hpos : (0 : Int) < b.length := by
      have : 0 < b.length := List.length_pos.mpr hb
      omega
    have hm0 : m ≤ 0 := by omega
    refine ⟨hout b _ m hpos hm0, ?_⟩
    intro hnd hneg hne
    have hfit : fits_int m = true := by
      rcases hm with h | h <;> subst h <;> decide
    rw [pysapcompress_decompress_parsed c o avail b m hlen hfit, hout b _ m hpos hm0]
    simp only [py_result_negative c _ _ _ _ _ hneg, if_neg hne,
      (error_string_of_labels c hnd).1]
    rfl

/-- C3, witness: the store engine with the input `[0x41]`. -/
theorem validation_precedes_codec_witness :
    decompress_packet sapCodes store_engine always (some [byteA]) 0 5
      = ⟨.returned (-11) none 5, Mem.init, []⟩ ∧
    decompress_packet sapCodes store_engine always (some [byteA]) 1 0
      = ⟨.returned (-10) none 0, Mem.init, []⟩ ∧
    compress_packet sapCodes store_engine always (some [byteA]) (-3) 0
      = ⟨.returned (-11) none 0, Mem.init, []⟩ ∧
    pysapcompress_decompress sapCodes store_engine always [byteA] (-1)
      = ⟨.error "pysapcompress.DecompressError"
          "Decompression error (invalid output length)", Mem.init, []⟩ :=
  have h := validation_precedes_codec sapCodes store_engine always
  ⟨h.2.1 [byteA] 0 5 (by decide), h.2.2.1 [byteA] 1 0 (by decide) (by decide),
   h.2.2.2.2.1 [byteA] (-3) 0 (by decide),
   (h.2.2.2.2.2 [byteA] (-1) (by decide) (by decide) (Or.inr rfl)).2 (by decide) (by decide)
     (by decide)⟩

/-! ## C10: one codec call -/

/-- C10: every call of `compress_packet` or `decompress_packet` invokes the codec at most
once, whatever it answers. When validation and the two buffer allocations succeed the call is
made exactly once, on an input buffer holding exactly the caller's first `in_length` bytes and
a zeroed output buffer, and the function's result is the interpretation of what that one call
returned, status and byte count unchanged. -/
theorem codec_invoked_once (c : CsCodes) (o : CsObjectInt) (avail : Nat → Bool)
    (in_ : Option (List Byte)) (src : List Byte) (n m : Int) (algorithm : Nat) :
    (compress_packet c o avail in_ n algorithm).calls.length ≤ 1 ∧
    (decompress_packet c o avail in_ n m).calls.length ≤ 1 ∧
    (0 < n → n.toNat ≤ src.length → avail 0 = true → avail 1 = true →
      0 ≤ to_int32 (n * MEMORY_ALLOC_FACTOR) →
      (src.take n.toNat).length = n.toNat ∧
      (compress_packet c o avail (some src) n algorithm).calls
        = [CodecCall.compr n (src.take n.toNat) n (zeroed (to_int32 (n * MEMORY_ALLOC_FACTOR)))
            (to_int32 (n * MEMORY_ALLOC_FACTOR)) (compress_option c algorithm)] ∧
      compress_packet c o avail (some src) n algorithm
        = interpret_result c avail ⟨2, 2, 0⟩
            [CodecCall.compr n (src.take n.toNat) n (zeroed (to_int32 (n * MEMORY_ALLOC_FACTOR)))
              (to_int32 (n * MEMORY_ALLOC_FACTOR)) (compress_option c algorithm)]
            (o.CsCompr n (src.take n.toNat) n (zeroed (to_int32 (n * MEMORY_ALLOC_FACTOR)))
              (to_int32 (n * MEMORY_ALLOC_FACTOR)) (compress_option c algorithm)) 0) ∧
    (0 < n → 0 < m → n.toNat ≤ src.length → avail 0 = true → avail 1 = true →
      (src.take n.toNat).length = n.toNat ∧
      (decompress_packet c o avail (some src) n m).calls
        = [CodecCall.decompr (src.take n.toNat) n (zeroed m) m c.CS_INIT_DECOMPRESS] ∧
      decompress_packet c o avail (some src) n m
        = interpret_result c avail ⟨2, 2, 0⟩
            [CodecCall.decompr (src.take n.toNat) n (zeroed m) m c.CS_INIT_DECOMPRESS]
            (o.CsDecompr (src.take n.toNat) n (zeroed m) m c.CS_INIT_DECOMPRESS) m) := by
  refine ⟨compress_packet_calls_le c o avail in_ n algorithm,
    decompress_packet_calls_le c o avail in_ n m, ?_, ?_⟩
  · intro hn hsrc h0 h1 hcap
    have h := compress_packet_reaches c o avail src n algorithm hn hsrc h0 h1 hcap
    refine ⟨List.length_take_of_le hsrc, ?_, h⟩
    rw [h, interpret_calls]
  · intro hn hm hsrc h0 h1
    have h := decompress_packet_reaches c o avail src n m hn hm hsrc h0 h1
    refine ⟨List.length_take_of_le hsrc, ?_, h⟩
    rw [h, interpret_calls]

/-- C10, witness: compressing and decompressing two bytes out of a three-byte buffer. -/
theorem codec_invoked_once_witness :
    (compress_packet sapCodes store_engine always (some [byteA, byteA, 7]) 2 0).calls
      = [CodecCall.compr 2 [byteA, byteA] 2 (zeroed 20) 20 1] ∧
    (decompress_packet sapCodes store_engine always (some [byteA, byteA, 7]) 2 9).calls
      = [CodecCall.decompr [byteA, byteA] 2 (zeroed 9) 9 1] :=
  have h := codec_invoked_once sapCodes store_engine always none [byteA, byteA, 7] 2 9 0
  ⟨(h.2.2.1 (by decide) (by decide) rfl rfl (by decide)).2.1,
   (h.2.2.2 (by decide) (by decide) (by decide) rfl rfl).2.1⟩

/-! ## C5: allocation failures -/

/-- C5: when one of the three allocations of `compress_packet` or `decompress_packet` fails,
the function returns `CS_E_MEMORY_ERROR` with `*out` `NULL`. A failed input allocation leaves
nothing allocated; a failed output allocation frees the input copy; both happen before any
codec call. A failed result allocation overrides the codec's success status, reports length
`0` and still frees both working buffers. The Python entry point turns the status into the
out-of-memory condition, not into `CompressError` / `DecompressError`. -/
theorem allocation_failure_is_memory_error (c : CsCodes) (o : CsObjectInt)
    (avail : Nat → Bool) (src : List Byte) (n m : Int) (algorithm : Nat)
    (hn : 0 < n) (hm : 0 < m) (hsrc : n.toNat ≤ src.length) :
    (avail 0 = false →
      compress_packet c o avail (some src) n algorithm
        = ⟨.returned CS_E_MEMORY_ERROR none 0, ⟨1, 0, 0⟩, []⟩ ∧
      decompress_packet c o avail (some src) n m
        = ⟨.returned CS_E_MEMORY_ERROR none m, ⟨1, 0, 0⟩, []⟩) ∧
    (avail 0 = true → avail 1 = false →
      compress_packet c o avail (some src) n algorithm
        = ⟨.returned CS_E_MEMORY_ERROR none 0, ⟨2, 1, 1⟩, []⟩ ∧
      decompress_packet c o avail (some src) n m
        = ⟨.returned CS_E_MEMORY_ERROR none m, ⟨2, 1, 1⟩, []⟩) ∧
    (avail 0 = true → avail 1 = true → avail 2 = false →
      (0 ≤ to_int32 (n * MEMORY_ALLOC_FACTOR) →
        is_success c (o.CsCompr n (src.take n.toNat) n
          (zeroed (to_int32 (n * MEMORY_ALLOC_FACTOR))) (to_int32 (n * MEMORY_ALLOC_FACTOR))
          (compress_option c algorithm)).rt = true →
        (compress_packet c o avail (some src) n algorithm).outcome
          = .returned CS_E_MEMORY_ERROR none 0 ∧
        (compress_packet c o avail (some src) n algorithm).mem = ⟨3, 2, 2⟩) ∧
      (is_success c (o.CsDecompr (src.take n.toNat) n (zeroed m) m
          c.CS_INIT_DECOMPRESS).rt = true →
        (decompress_packet c o avail (some src) n m).outcome
          = .returned CS_E_MEMORY_ERROR none 0 ∧
        (decompress_packet c o avail (some src) n m).mem = ⟨3, 2, 2⟩)) ∧
    (∀ len, py_result c compression_exception_name compression_message
        (.returned CS_E_MEMORY_ERROR none len) = .no_memory ∧
      py_result c decompression_exception_name decompression_message
        (.returned CS_E_MEMORY_ERROR none len) = .no_memory) := by
  have hn2 : ¬ n ≤ 0 := by omega
  have hm2 : ¬ m ≤ 0 := by omega
  refine ⟨?_, ?_, ?_, ?_⟩
  · intro h0
    have a1 : malloc avail Mem.init n = (false, ⟨1, 0, 0⟩) :=
      malloc_refused avail Mem.init n (Or.inl h0)
    constructor
    · simp [compress_packet, hn2, a1]
    · simp [decompress_packet, hn2, hm2, a1]
  · intro h0 h1
    have a1 : malloc avail Mem.init n = (true, ⟨1, 1, 0⟩) :=
      malloc_granted avail Mem.init n (by omega) h0
    have a2 : ∀ size, malloc avail ⟨1, 1, 0⟩ size = (false, ⟨2, 1, 0⟩) :=
      fun size => malloc_refused avail ⟨1, 1, 0⟩ size (Or.inl h1)
    constructor
    · simp [compress_packet, hn2, a1, a2, copy_bytes_ok src n hsrc, free]
    · simp [decompress_packet, hn2, hm2, a1, a2, copy_bytes_ok src n hsrc, free]
  · intro h0 h1 h2
    constructor
    · intro hcap hs
      rw [compress_packet_reaches c o avail src n algorithm hn hsrc h0 h1 hcap,
        interpret_no_memory c avail _ _ _ _ hs (Or.inl h2)]
      exact ⟨rfl, rfl⟩
    · intro hs
      rw [decompress_packet_reaches c o avail src n m hn hm hsrc h0 h1,
        interpret_no_memory c avail _ _ _ _ hs (Or.inl h2)]
      exact ⟨rfl, rfl⟩
  · intro len
    constructor <;> rfl

/-- C5, witness: the store engine on `[0x41]` with the first, the second and the third
allocation refused in turn. -/
theorem allocation_failure_is_memory_error_witness :
    compress_packet sapCodes store_engine (all_but 0) (some [byteA]) 1 0
      = ⟨.returned (-99) none 0, ⟨1, 0, 0⟩, []⟩ ∧
    decompress_packet sapCodes store_engine (all_but 1) (some [byteA]) 1 4
      = ⟨.returned (-99) none 4, ⟨2, 1, 1⟩, []⟩ ∧
    (compress_packet sapCodes store_engine (all_but 2) (some [byteA]) 1 0).outcome
      = .returned (-99) none 0 ∧
    (pysapcompress_compress sapCodes store_engine (all_but 2) [byteA] 0).result
      = .no_memory :=
  have h0 := allocation_failure_is_memory_error sapCodes store_engine (all_but 0) [byteA] 1 4 0
    (by decide) (by decide) (by decide)
  have h1 := allocation_failure_is_memory_error sapCodes store_engine (all_but 1) [byteA] 1 4 0
    (by decide) (by decide) (by decide)
  have h2 := allocation_failure_is_memory_error sapCodes store_engine (all_but 2) [byteA] 1 4 0
    (by decide) (by decide) (by decide)
  ⟨(h0.1 rfl).1, (h1.2.1 rfl rfl).2, ((h2.2.2.1 rfl rfl rfl).1 (by decide) (by decide)).1,
   by decide⟩

/-! ## C2: the success path -/

/-- C2: when validation passes, the allocations succeed and the single codec call returns one
of `CS_END_OF_STREAM`, `CS_END_INBUFFER`, `CS_END_OUTBUFFER` with `bytes_written` bytes
produced into the working output buffer, `compress_packet` and `decompress_packet` return the
codec's status unchanged, report `bytes_written` as the length, and hand back a freshly
allocated buffer (the third allocation of the call) holding exactly the first `bytes_written`
bytes of the working output buffer as the codec left it. -/
theorem success_returns_produced_bytes (c : CsCodes) (o : CsObjectInt) (avail : Nat → Bool)
    (src : List Byte) (n m : Int) (algorithm : Nat) (r : CodecReturn)
    (hn : 0 < n) (hsrc : n.toNat ≤ src.length)
    (h0 : avail 0 = true) (h1 : avail 1 = true) (h2 : avail 2 = true)
    (hrt : r.rt = c.CS_END_OF_STREAM ∨ r.rt = c.CS_END_INBUFFER ∨ r.rt = c.CS_END_OUTBUFFER)
    (hw0 : 0 ≤ r.bytes_written) (hw : r.bytes_written.toNat ≤ r.bufout.length) :
    (0 ≤ to_int32 (n * MEMORY_ALLOC_FACTOR) →
      o.CsCompr n (src.take n.toNat) n (zeroed (to_int32 (n * MEMORY_ALLOC_FACTOR)))
        (to_int32 (n * MEMORY_ALLOC_FACTOR)) (compress_option c algorithm) = r →
      compress_packet c o avail (some src) n algorithm
        = ⟨.returned r.rt (some (r.bufout.take r.bytes_written.toNat)) r.bytes_written,
            ⟨3, 3, 2⟩,
            [CodecCall.compr n (src.take n.toNat) n
              (zeroed (to_int32 (n * MEMORY_ALLOC_FACTOR)))
              (to_int32 (n * MEMORY_ALLOC_FACTOR)) (compress_option c algorithm)]⟩) ∧
    (0 < m →
      o.CsDecompr (src.take n.toNat) n (zeroed m) m c.CS_INIT_DECOMPRESS = r →
      decompress_packet c o avail (some src) n m
        = ⟨.returned r.rt (some (r.bufout.take r.bytes_written.toNat)) r.bytes_written,
            ⟨3, 3, 2⟩,
            [CodecCall.decompr (src.take n.toNat) n (zeroed m) m c.CS_INIT_DECOMPRESS]⟩) := by
  have hs : is_success c r.rt = true := (is_success_iff c r.rt).mpr hrt
  constructor
  · intro hcap hr
    rw [compress_packet_reaches c o avail src n algorithm hn hsrc h0 h1 hcap, hr,
      interpret_success c avail _ _ r _ hs h2 hw0 hw]
  · intro hm hr
    rw [decompress_packet_reaches c o avail src n m hn hm hsrc h0 h1, hr,
      interpret_success c avail _ _ r _ hs h2 hw0 hw]

/-- C2, witness: the store engine compressing `[0x41]` into a ten-byte working buffer and
decompressing `[1, 0x41]` into a four-byte one. -/
theorem success_returns_produced_bytes_witness :
    compress_packet sapCodes store_engine always (some [byteA]) 1 0
      = ⟨.returned 1 (some [1, byteA]) 2, ⟨3, 3, 2⟩,
          [CodecCall.compr 1 [byteA] 1 (zeroed 10) 10 1]⟩ ∧
    decompress_packet sapCodes store_engine always (some [1, byteA]) 2 4
      = ⟨.returned 1 (some [byteA]) 1, ⟨3, 3, 2⟩,
          [CodecCall.decompr [1, byteA] 2 (zeroed 4) 4 1]⟩ :=
  ⟨(success_returns_produced_bytes sapCodes store_engine always [byteA] 1 1 0
      ⟨1, 1, 2, [1, byteA, 0, 0, 0, 0, 0, 0, 0, 0]⟩ (by decide) (by decide) rfl rfl rfl
      (Or.inl rfl) (by decide) (by decide)).1 (by decide) (by decide),
   (success_returns_produced_bytes sapCodes store_engine always [1, byteA] 2 4 0
      ⟨1, 2, 1, [byteA, 0, 0, 0]⟩ (by decide) (by decide) rfl rfl rfl
      (Or.inl rfl) (by decide) (by decide)).2 (by decide) (by decide)⟩

/-! ## C1: other statuses -/

/-- C1, counterexample: with the header's values the status `0` is none of the three success
statuses; a codec answering `0` makes `compress_packet` and `decompress_packet` return `0`
with no buffer, and since `0` is not negative both entry points return a tuple
`(0, length, None)` instead of raising an error. -/
theorem nonnegative_status_is_returned :
    is_success sapCodes 0 = false ∧
    (compress_packet sapCodes (const_engine 0 0) always (some [byteA]) 1 0).outcome
      = .returned 0 none 0 ∧
    (pysapcompress_compress sapCodes (const_engine 0 0) always [byteA] 0).result
      = .value 0 0 none ∧
    (decompress_packet sapCodes (const_engine 0 0) always (some [byteA]) 1 4).outcome
      = .returned 0 none 4 ∧
    (pysapcompress_decompress sapCodes (const_engine 0 0) always [byteA] 4).result
      = .value 0 4 none := by
  decide

/-- C1, amended: for every status the codec returns other than the three success statuses,
`compress_packet` and `decompress_packet` return that status with `*out` `NULL` (and the
length `0`, respectively the declared length, unchanged), having freed both working buffers.
The entry point then fails with an error exactly when the status is negative: out of memory
for `-99`, `CompressError` / `DecompressError` with the status' description otherwise. For a
status that is not negative it returns the tuple `(status, length, None)`. -/
theorem failure_status_has_no_buffer (c : CsCodes) (o : CsObjectInt) (avail : Nat → Bool)
    (b : List Byte) (m algorithm : Int) (rt : Int)
    (hb : b ≠ []) (hlen : (b.length : Int) ≤ INT_MAX)
    (h0 : avail 0 = true) (h1 : avail 1 = true)
    (hrt : rt ≠ c.CS_END_OF_STREAM ∧ rt ≠ c.CS_END_INBUFFER ∧ rt ≠ c.CS_END_OUTBUFFER) :
    (fits_int algorithm = true → 0 ≤ to_int32 ((b.length : Int) * MEMORY_ALLOC_FACTOR) →
      (o.CsCompr b.length b b.length (zeroed (to_int32 ((b.length : Int) * MEMORY_ALLOC_FACTOR)))
        (to_int32 ((b.length : Int) * MEMORY_ALLOC_FACTOR))
        (compress_option c (to_uint32 algorithm))).rt = rt →
      (compress_packet c o avail (some b) b.length (to_uint32 algorithm)).outcome
        = .returned rt none 0 ∧
      (compress_packet c o avail (some b) b.length (to_uint32 algorithm)).mem = ⟨2, 2, 2⟩ ∧
      (pysapcompress_compress c o avail b algorithm).result
        = if rt < 0 then
            if rt = CS_E_MEMORY_ERROR then .no_memory
            else .error "pysapcompress.CompressError"
              ("Compression error (" ++ error_string c rt ++ ")")
          else .value rt 0 none) ∧
    (fits_int m = true → 0 < m →
      (o.CsDecompr b b.length (zeroed m) m c.CS_INIT_DECOMPRESS).rt = rt →
      (decompress_packet c o avail (some b) b.length m).outcome = .returned rt none m ∧
      (decompress_packet c o avail (some b) b.length m).mem = ⟨2, 2, 2⟩ ∧
      (pysapcompress_decompress c o avail b m).result
        = if rt < 0 then
            if rt = CS_E_MEMORY_ERROR then .no_memory
            else .error "pysapcompress.DecompressError"
              ("Decompression error (" ++ error_string c rt ++ ")")
          else .value rt m none) := by
  have hpos : (0 : Int) < b.length := by
    have : 0 < b.length := List.length_pos.mpr hb
    omega
  have hsrc : (b.length : Int).toNat ≤ b.length := by simp
  have htake : b.take (b.length : Int).toNat = b := by simp
  have hs : is_success c rt = false := (is_success_eq_false_iff c rt).mpr hrt
  constructor
  · intro ha hcap hr
    have hrun := compress_packet_reaches c o avail b b.length (to_uint32 algorithm) hpos hsrc
      h0 h1 hcap
    rw [htake] at hrun
    have hfail := interpret_failure c avail ⟨2, 2, 0⟩
      [CodecCall.compr b.length b b.length
        (zeroed (to_int32 ((b.length : Int) * MEMORY_ALLOC_FACTOR)))
        (to_int32 ((b.length : Int) * MEMORY_ALLOC_FACTOR))
        (compress_option c (to_uint32 algorithm))]
      (o.CsCompr b.length b b.length
        (zeroed (to_int32 ((b.length : Int) * MEMORY_ALLOC_FACTOR)))
        (to_int32 ((b.length : Int) * MEMORY_ALLOC_FACTOR))
        (compress_option c (to_uint32 algorithm))) 0 (by rw [hr]; exact hs)
    rw [hr] at hfail
    rw [pysapcompress_compress_parsed c o avail b algorithm hlen ha, hrun, hfail]
    refine ⟨rfl, rfl, ?_⟩
    by_cases hneg : rt < 0
    · simp only [py_result_negative c _ _ _ _ _ hneg, if_pos hneg]
      rfl
    · simp only [py_result_nonnegative c _ _ _ _ _ (by omega : 0 ≤ rt), if_neg hneg]
      rfl
  · intro hfm hm hr
    have hrun := decompress_packet_reaches c o avail b b.length m hpos hm hsrc h0 h1
    rw [htake] at hrun
    have hfail := interpret_failure c avail ⟨2, 2, 0⟩
      [CodecCall.decompr b b.length (zeroed m) m c.CS_INIT_DECOMPRESS]
      (o.CsDecompr b b.length (zeroed m) m c.CS_INIT_DECOMPRESS) m (by rw [hr]; exact hs)
    rw [hr] at hfail
    rw [pysapcompress_decompress_parsed c o avail b m hlen hfm, hrun, hfail]
    refine ⟨rfl, rfl, ?_⟩
    by_cases hneg : rt < 0
    · simp only [py_result_negative c _ _ _ _ _ hneg, if_pos hneg]
      rfl
    · simp only [py_result_nonnegative c _ _ _ _ _ (by omega : 0 ≤ rt), if_neg hneg]
      rfl

/-- C1, witness: the store engine answers `CS_E_UNKNOWN_ALG` to the algorithm selector `7`,
and a codec answering `CS_E_BAD_HUF_TREE` stands for a failed decompression. -/
theorem failure_status_has_no_buffer_witness :
    (compress_packet sapCodes store_engine always (some [byteA]) 1 7).outcome
      = .returned (-21) none 0 ∧
    (pysapcompress_compress sapCodes store_engine always [byteA] 7).result
      = .error "pysapcompress.CompressError" "Compression error (unknown algorithm)" ∧
    (decompress_packet sapCodes (const_engine (-52) 0) always (some [byteA]) 1 4).outcome
      = .returned (-52) none 4 ∧
    (pysapcompress_decompress sapCodes (const_engine (-52) 0) always [byteA] 4).result
      = .error "pysapcompress.DecompressError" "Decompression error (bad hufman tree)" :=
  have hc := (failure_status_has_no_buffer sapCodes store_engine always [byteA] 4 7 (-21)
    (by decide) (by decide) rfl rfl (by decide)).1 (by decide) (by decide) (by decide)
  have hd := (failure_status_has_no_buffer sapCodes (const_engine (-52) 0) always [byteA] 4 7
    (-52) (by decide) (by decide) rfl rfl (by decide)).2 (by decide) (by decide) (by decide)
  ⟨hc.1, hc.2.2, hd.1, hd.2.2⟩

/-! ## C4: the result stays within the working buffer -/

theorem py_result_value (c : CsCodes) (exception : String) (format : String → String)
    (oc : Outcome) (s len : Int) (bytes : List Byte)
    (h : py_result c exception format oc = .value s len (some bytes)) :
    ∃ out, oc = .returned s (some out) len ∧ bytes = out.take len.toNat := by
  cases oc with
  | undefined => simp [py_result] at h
  | returned rt out l =>
    by_cases hs : rt < 0
    · rw [py_result_negative c _ _ _ _ _ hs] at h
      split at h <;> cases h
    · rw [py_result_nonnegative c _ _ _ _ _ (by omega)] at h
      simp only [PyResult.value.injEq] at h
      obtain ⟨h1, h2, h3⟩ := h
      subst h1 h2
      cases out with
      | none => simp [build_bytes] at h3
      | some buf =>
        refine ⟨buf, rfl, ?_⟩
        simpa [build_bytes] using h3.symm

/-- C4: for a codec that keeps the capacity contract, every successful `compress_packet` or
`decompress_packet` (one that hands back a result buffer) has `producedLength` between `0`
and the capacity of the working output buffer given to the codec, which is the size that was
allocated for it; the result buffer is exactly `producedLength` bytes long; and the copy into
it reads only the first `producedLength` positions of the working buffer, so that no call on
a valid input buffer reads out of bounds. The bytes the Python entry points return have the
reported length. -/
theorem produced_length_within_capacity (c : CsCodes) (o : CsObjectInt) (avail : Nat → Bool)
    (src : List Byte) (n m : Int) (algorithm : Nat) (hcap : o.WithinCapacity) :
    (n.toNat ≤ src.length →
      (compress_packet c o avail (some src) n algorithm).outcome ≠ .undefined ∧
      (decompress_packet c o avail (some src) n m).outcome ≠ .undefined) ∧
    (∀ rt out len,
      (compress_packet c o avail (some src) n algorithm).outcome = .returned rt (some out) len →
      (compress_packet c o avail (some src) n algorithm).calls
        = [CodecCall.compr n (src.take n.toNat) n (zeroed (to_int32 (n * MEMORY_ALLOC_FACTOR)))
            (to_int32 (n * MEMORY_ALLOC_FACTOR)) (compress_option c algorithm)] ∧
      ((zeroed (to_int32 (n * MEMORY_ALLOC_FACTOR))).length : Int)
        = to_int32 (n * MEMORY_ALLOC_FACTOR) ∧
      len = (o.CsCompr n (src.take n.toNat) n (zeroed (to_int32 (n * MEMORY_ALLOC_FACTOR)))
        (to_int32 (n * MEMORY_ALLOC_FACTOR)) (compress_option c algorithm)).bytes_written ∧
      0 ≤ len ∧ len ≤ to_int32 (n * MEMORY_ALLOC_FACTOR) ∧ (out.length : Int) = len ∧
      len.toNat ≤ (o.CsCompr n (src.take n.toNat) n
        (zeroed (to_int32 (n * MEMORY_ALLOC_FACTOR))) (to_int32 (n * MEMORY_ALLOC_FACTOR))
        (compress_option c algorithm)).bufout.length) ∧
    (∀ rt out len,
      (decompress_packet c o avail (some src) n m).outcome = .returned rt (some out) len →
      (decompress_packet c o avail (some src) n m).calls
        = [CodecCall.decompr (src.take n.toNat) n (zeroed m) m c.CS_INIT_DECOMPRESS] ∧
      ((zeroed m).length : Int) = m ∧
      len = (o.CsDecompr (src.take n.toNat) n (zeroed m) m
        c.CS_INIT_DECOMPRESS).bytes_written ∧
      0 ≤ len ∧ len ≤ m ∧ (out.length : Int) = len ∧
      len.toNat ≤ (o.CsDecompr (src.take n.toNat) n (zeroed m) m
        c.CS_INIT_DECOMPRESS).bufout.length) ∧
    (∀ b x s len bytes,
      (pysapcompress_compress c o avail b x).result = .value s len (some bytes) ∨
      (pysapcompress_decompress c o avail b x).result = .value s len (some bytes) →
      (bytes.length : Int) = len) := by
  -- the two packet statements, for any input length and algorithm
  have hC : ∀ (src : List Byte) (n : Int) (algorithm : Nat) (rt : Int) (out : List Byte)
      (len : Int),
      (compress_packet c o avail (some src) n algorithm).outcome = .returned rt (some out) len →
      (compress_packet c o avail (some src) n algorithm).calls
        = [CodecCall.compr n (src.take n.toNat) n (zeroed (to_int32 (n * MEMORY_ALLOC_FACTOR)))
            (to_int32 (n * MEMORY_ALLOC_FACTOR)) (compress_option c algorithm)] ∧
      ((zeroed (to_int32 (n * MEMORY_ALLOC_FACTOR))).length : Int)
        = to_int32 (n * MEMORY_ALLOC_FACTOR) ∧
      len = (o.CsCompr n (src.take n.toNat) n (zeroed (to_int32 (n * MEMORY_ALLOC_FACTOR)))
        (to_int32 (n * MEMORY_ALLOC_FACTOR)) (compress_option c algorithm)).bytes_written ∧
      0 ≤ len ∧ len ≤ to_int32 (n * MEMORY_ALLOC_FACTOR) ∧ (out.length : Int) = len ∧
      len.toNat ≤ (o.CsCompr n (src.take n.toNat) n
        (zeroed (to_int32 (n * MEMORY_ALLOC_FACTOR))) (to_int32 (n * MEMORY_ALLOC_FACTOR))
        (compress_option c algorithm)).bufout.length := by
    intro src n algorithm rt out len h
    rcases compress_packet_shape c o avail src n algorithm with ⟨rt', h', _⟩ | ⟨h', _⟩ | hr
    · rw [h'] at h; cases h
    · rw [h'] at h; cases h
    · obtain ⟨hn, hsrc, h0, h1, hcp⟩ := hr
      have hrun := compress_packet_reaches c o avail src n algorithm hn hsrc h0 h1 hcp
      rw [hrun] at h ⊢
      obtain ⟨_, _, hlen, hl0, hfit, hout⟩ := interpret_buffer c avail _ _ _ _ _ _ _ h
      have hz := zeroed_length _ hcp
      have hw := (hcap.1 n (src.take n.toNat) n _ _ (compress_option c algorithm) hz).2
      refine ⟨interpret_calls _ _ _ _ _ _, hz, hlen, hl0, by rw [hlen]; exact hw, ?_, hfit⟩
      rw [hout, List.length_take_of_le hfit]
      omega
  have hD : ∀ (src : List Byte) (n m : Int) (rt : Int) (out : List Byte) (len : Int),
      (decompress_packet c o avail (some src) n m).outcome = .returned rt (some out) len →
      (decompress_packet c o avail (some src) n m).calls
        = [CodecCall.decompr (src.take n.toNat) n (zeroed m) m c.CS_INIT_DECOMPRESS] ∧
      ((zeroed m).length : Int) = m ∧
      len = (o.CsDecompr (src.take n.toNat) n (zeroed m) m
        c.CS_INIT_DECOMPRESS).bytes_written ∧
      0 ≤ len ∧ len ≤ m ∧ (out.length : Int) = len ∧
      len.toNat ≤ (o.CsDecompr (src.take n.toNat) n (zeroed m) m
        c.CS_INIT_DECOMPRESS).bufout.length := by
    intro src n m rt out len h
    rcases decompress_packet_shape c o avail src n m with ⟨rt', h', _⟩ | ⟨h', _⟩ | hr
    · rw [h'] at h; cases h
    · rw [h'] at h; cases h
    · obtain ⟨hn, hm, hsrc, h0, h1⟩ := hr
      have hrun := decompress_packet_reaches c o avail src n m hn hm hsrc h0 h1
      rw [hrun] at h ⊢
      obtain ⟨_, _, hlen, hl0, hfit, hout⟩ := interpret_buffer c avail _ _ _ _ _ _ _ h
      have hz := zeroed_length m (by omega)
      have hw := (hcap.2 (src.take n.toNat) n _ _ c.CS_INIT_DECOMPRESS hz).2
      refine ⟨interpret_calls _ _ _ _ _ _, hz, hlen, hl0, by rw [hlen]; exact hw, ?_, hfit⟩
      rw [hout, List.length_take_of_le hfit]
      omega
  refine ⟨?_, hC src n algorithm, hD src n m, ?_⟩
  · intro hsrc
    constructor
    · rcases compress_packet_shape c o avail src n algorithm with ⟨rt', h', _⟩ | ⟨_, h'⟩ | hr
      · rw [h']; simp
      · exact absurd hsrc h'
      · obtain ⟨hn, _, h0, h1, hcp⟩ := hr
        rw [compress_packet_reaches c o avail src n algorithm hn hsrc h0 h1 hcp]
        have hz := zeroed_length _ hcp
        have hw := hcap.1 n (src.take n.toNat) n _ _ (compress_option c algorithm) hz
        exact interpret_defined c avail _ _ _ _ (to_int32 (n * MEMORY_ALLOC_FACTOR))
          (by rw [hw.1]; exact hz) hw.2
    · rcases decompress_packet_shape c o avail src n m with ⟨rt', h', _⟩ | ⟨_, h'⟩ | hr
      · rw [h']; simp
      · exact absurd hsrc h'
      · obtain ⟨hn, hm, _, h0, h1⟩ := hr
        rw [decompress_packet_reaches c o avail src n m hn hm hsrc h0 h1]
        have hz := zeroed_length m (by omega)
        have hw := hcap.2 (src.take n.toNat) n _ _ c.CS_INIT_DECOMPRESS hz
        exact interpret_defined c avail _ _ _ _ m (by rw [hw.1]; exact hz) hw.2
  · intro b x s len bytes h
    rcases h with h | h
    · unfold pysapcompress_compress at h
      split at h
      · obtain ⟨out, ho, hb⟩ := py_result_value c _ _ _ _ _ _ h
        have := (hC _ _ _ _ _ _ ho).2.2.2.2.2.1
        rw [hb, List.length_take]
        omega
      · cases h
    · unfold pysapcompress_decompress at h
      split at h
      · obtain ⟨out, ho, hb⟩ := py_result_value c _ _ _ _ _ _ h
        have := (hD _ _ _ _ _ _ ho).2.2.2.2.2.1
        rw [hb, List.length_take]
        omega
      · cases h

theorem emit_within (done full : Int) (data : List Byte) (inlen : Int) (outbuf : List Byte)
    (outlen : Int) (h : (outbuf.length : Int) = outlen) :
    (emit done full data inlen outbuf outlen).bufout.length = outbuf.length ∧
    (emit done full data inlen outbuf outlen).bytes_written ≤ outlen := by
  unfold emit
  split
  · rename_i hfit
    simp only [List.length_append, List.length_drop]
    omega
  · rename_i hfit
    simp only [List.length_append, List.length_drop, List.length_take]
    omega

/-- The engine built from an abstract pair keeps the capacity contract. -/
theorem engine_of_within_capacity (c : CsCodes) (k : AbstractCodec) :
    (engine_of c k).WithinCapacity := by
  constructor
  · intro sumlen inbuf inlen outbuf outlen option h
    simp only [engine_of]
    split
    · exact emit_within _ _ _ _ _ _ h
    · split
      · exact emit_within _ _ _ _ _ _ h
      · refine ⟨rfl, ?_⟩
        show (0 : Int) ≤ outlen
        omega
  · intro inbuf inlen outbuf outlen option h
    simp only [engine_of]
    split
    · refine ⟨rfl, ?_⟩
      show (0 : Int) ≤ outlen
      omega
    · exact emit_within _ _ _ _ _ _ h

/-- C4, witness: the store engine compresses `[0x41]` to two bytes inside its ten-byte
working buffer and decompresses them to one byte inside a four-byte one. -/
theorem produced_length_within_capacity_witness :
    (compress_packet sapCodes store_engine always (some [byteA]) 1 0).outcome
      = .returned 1 (some [1, byteA]) 2 ∧
    (2 : Int) ≤ to_int32 (1 * MEMORY_ALLOC_FACTOR) ∧
    (([1, byteA] : List Byte).length : Int) = 2 ∧
    (decompress_packet sapCodes store_engine always (some [1, byteA]) 2 4).outcome
      = .returned 1 (some [byteA]) 1 ∧
    (1 : Int) ≤ 4 ∧ (([byteA] : List Byte).length : Int) = 1 :=
  have hc := (produced_length_within_capacity sapCodes store_engine always [byteA] 1 4 0
    (engine_of_within_capacity sapCodes store_codec)).2.1 1 [1, byteA] 2 (by decide)
  have hd := (produced_length_within_capacity sapCodes store_engine always [1, byteA] 2 4 0
    (engine_of_within_capacity sapCodes store_codec)).2.2.1 1 [byteA] 1 (by decide)
  ⟨by decide, hc.2.2.2.2.1, hc.2.2.2.2.2.1, by decide, hd.2.2.2.2.1, hd.2.2.2.2.2.1⟩

/-! ## C6: the two error conditions -/

/-- C6, counterexample: the raised `CompressError` consists of the exception and a message
built from the description alone. The statuses `-1000` and `-1001`, both described as
"unknown error", raise the same error, so the error does not carry the status code. -/
theorem error_drops_status_code :
    (compress_packet sapCodes (const_engine (-1000) 0) always (some [byteA]) 1 0).outcome
      = .returned (-1000) none 0 ∧
    (compress_packet sapCodes (const_engine (-1001) 0) always (some [byteA]) 1 0).outcome
      = .returned (-1001) none 0 ∧
    (pysapcompress_compress sapCodes (const_engine (-1000) 0) always [byteA] 0).result
      = .error "pysapcompress.CompressError" "Compression error (unknown error)" ∧
    (pysapcompress_compress sapCodes (const_engine (-1001) 0) always [byteA] 0).result
      = .error "pysapcompress.CompressError" "Compression error (unknown error)" := by
  decide

/-- C6, amended: for every negative status `s` returned by `compress_packet` or
`decompress_packet`, the entry point raises exactly one of two conditions: out of memory if
and only if `s = -99`, and otherwise `CompressError` (for compress) or `DecompressError` (for
decompress) whose message is "Compression error (d)" or "Decompression error (d)" with
`d = error_string(s)`; the numeric status is not part of the error. In particular, under a
header where `CS_E_UNKNOWN_ALG` is negative, differs from `-99` and labels its own `case`,
that status raises `CompressError` with the description "unknown algorithm". -/
theorem negative_status_raises (c : CsCodes) (o : CsObjectInt) (avail : Nat → Bool)
    (b : List Byte) (x : Int) (s : Int) (out : Option (List Byte)) (len : Int)
    (hlen : (b.length : Int) ≤ INT_MAX) (hx : fits_int x = true) (hs : s < 0) :
    ((compress_packet c o avail (some b) b.length (to_uint32 x)).outcome
        = .returned s out len →
      (pysapcompress_compress c o avail b x).result
        = (if s = CS_E_MEMORY_ERROR then .no_memory
           else .error "pysapcompress.CompressError"
             ("Compression error (" ++ error_string c s ++ ")")) ∧
      ((pysapcompress_compress c o avail b x).result = .no_memory ↔ s = CS_E_MEMORY_ERROR) ∧
      (c.caseLabels.Nodup → s = c.CS_E_UNKNOWN_ALG → s ≠ CS_E_MEMORY_ERROR →
        (pysapcompress_compress c o avail b x).result
          = .error "pysapcompress.CompressError" "Compression error (unknown algorithm)")) ∧
    ((decompress_packet c o avail (some b) b.length x).outcome = .returned s out len →
      (pysapcompress_decompress c o avail b x).result
        = (if s = CS_E_MEMORY_ERROR then .no_memory
           else .error "pysapcompress.DecompressError"
             ("Decompression error (" ++ error_string c s ++ ")")) ∧
      ((pysapcompress_decompress c o avail b x).result = .no_memory ↔
        s = CS_E_MEMORY_ERROR)) := by
  constructor
  · intro h
    have hres : (pysapcompress_compress c o avail b x).result
        = (if s = CS_E_MEMORY_ERROR then .no_memory
           else .error "pysapcompress.CompressError"
             ("Compression error (" ++ error_string c s ++ ")")) := by
      rw [pysapcompress_compress_parsed c o avail b x hlen hx, h]
      simp only [py_result_negative c _ _ _ _ _ hs]
      rfl
    refine ⟨hres, ?_, ?_⟩
    · rw [hres]
      by_cases h99 : s = CS_E_MEMORY_ERROR <;> simp [h99]
    · intro hnd halg h99
      rw [hres, if_neg h99, halg, (error_string_of_labels c hnd).2.2]
      rfl
  · intro h
    have hres : (pysapcompress_decompress c o avail b x).result
        = (if s = CS_E_MEMORY_ERROR then .no_memory
           else .error "pysapcompress.DecompressError"
             ("Decompression error (" ++ error_string c s ++ ")")) := by
      rw [pysapcompress_decompress_parsed c o avail b x hlen hx, h]
      simp only [py_result_negative c _ _ _ _ _ hs]
      rfl
    refine ⟨hres, ?_⟩
    rw [hres]
    by_cases h99 : s = CS_E_MEMORY_ERROR <;> simp [h99]

/-- C6, witness: the store engine answers `CS_E_UNKNOWN_ALG` (`-21`) to the algorithm
selector `7`, and a refused allocation gives `-99`. -/
theorem negative_status_raises_witness :
    (pysapcompress_compress sapCodes store_engine always [byteA] 7).result
      = .error "pysapcompress.CompressError" "Compression error (unknown algorithm)" ∧
    ((pysapcompress_compress sapCodes store_engine (all_but 0) [byteA] 0).result = .no_memory
      ↔ (-99 : Int) = CS_E_MEMORY_ERROR) ∧
    (pysapcompress_decompress sapCodes store_engine always [byteA] 0).result
      = .error "pysapcompress.DecompressError"
          "Decompression error (invalid output length)" :=
  ⟨((negative_status_raises sapCodes store_engine always [byteA] 7 (-21) none 0 (by decide)
      (by decide) (by decide)).1 (by decide)).2.2 (by decide) rfl (by decide),
   ((negative_status_raises sapCodes store_engine (all_but 0) [byteA] 0 (-99) none 0
      (by decide) (by decide) (by decide)).1 (by decide)).2.1,
   (((negative_status_raises sapCodes store_engine always [byteA] 0 (-10) none 0 (by decide)
      (by decide) (by decide)).2 (by decide)).1.trans (if_neg (by decide))).trans
      (by decide)⟩

/-! ## C7: allocations and releases -/

/-- Heap balance of the packet functions: when one returns, every buffer it allocated has
been freed except the result buffer it hands to its caller. -/
theorem packet_heap_balance (c : CsCodes) (o : CsObjectInt) (avail : Nat → Bool)
    (src : List Byte) (n m : Int) (algorithm : Nat) (rt : Int) (out : Option (List Byte))
    (len : Int) :
    ((compress_packet c o avail (some src) n algorithm).outcome = .returned rt out len →
      (compress_packet c o avail (some src) n algorithm).mem.allocated
        = (compress_packet c o avail (some src) n algorithm).mem.freed
          + (if out.isSome then 1 else 0)) ∧
    ((decompress_packet c o avail (some src) n m).outcome = .returned rt out len →
      (decompress_packet c o avail (some src) n m).mem.allocated
        = (decompress_packet c o avail (some src) n m).mem.freed
          + (if out.isSome then 1 else 0)) := by
  constructor
  · intro h
    rcases compress_packet_shape c o avail src n algorithm with ⟨rt', h', _, hb⟩ | ⟨h', _⟩ | hr
    · rw [h'] at h
      cases h
      simp [hb]
    · rw [h'] at h; cases h
    · obtain ⟨hn, hsrc, h0, h1, hcp⟩ := hr
      rw [compress_packet_reaches c o avail src n algorithm hn hsrc h0 h1 hcp] at h ⊢
      obtain ⟨hf, ha⟩ := interpret_balance c avail _ _ _ _ _ _ _ h
      rw [hf, ha]
  · intro h
    rcases decompress_packet_shape c o avail src n m with ⟨rt', h', _, hb⟩ | ⟨h', _⟩ | hr
    · rw [h'] at h
      cases h
      simp [hb]
    · rw [h'] at h; cases h
    · obtain ⟨hn, hm, hsrc, h0, h1⟩ := hr
      rw [decompress_packet_reaches c o avail src n m hn hm hsrc h0 h1] at h ⊢
      obtain ⟨hf, ha⟩ := interpret_balance c avail _ _ _ _ _ _ _ h
      rw [hf, ha]

/-- The entry points neither allocate nor free: their heap bookkeeping is that of the packet
function, so a result buffer stays allocated after `Py_BuildValue` has copied it. -/
theorem entry_points_free_nothing (c : CsCodes) (o : CsObjectInt) (avail : Nat → Bool)
    (b : List Byte) (x : Int) (hlen : (b.length : Int) ≤ INT_MAX) (hx : fits_int x = true) :
    (pysapcompress_compress c o avail b x).mem
      = (compress_packet c o avail (some b) b.length (to_uint32 x)).mem ∧
    (pysapcompress_decompress c o avail b x).mem
      = (decompress_packet c o avail (some b) b.length x).mem := by
  rw [pysapcompress_compress_parsed c o avail b x hlen hx,
    pysapcompress_decompress_parsed c o avail b x hlen hx]
  exact ⟨rfl, rfl⟩

/-- C7, the no-leak property evaluated on successful calls: `compress` of `[0x41]` and
`decompress` of `[1, 0x41]` with the store engine each perform three allocations (input copy,
working output buffer, result buffer) and two releases; the result buffer is never freed. -/
theorem successful_call_leaks_result_buffer :
    pysapcompress_compress sapCodes store_engine always [byteA] 0
      = ⟨.value 1 2 (some [1, byteA]), ⟨3, 3, 2⟩,
          [CodecCall.compr 1 [byteA] 1 (zeroed 10) 10 1]⟩ ∧
    pysapcompress_decompress sapCodes store_engine always [1, byteA] 4
      = ⟨.value 1 1 (some [byteA]), ⟨3, 3, 2⟩,
          [CodecCall.decompr [1, byteA] 2 (zeroed 4) 4 1]⟩ := by
  decide

/-! ## C9: the capacity of the working output buffer -/

theorem to_int32_of_range (x : Int) (h0 : 0 ≤ x) (h1 : x ≤ INT_MAX) : to_int32 x = x := by
  unfold INT_MAX at h1
  unfold to_int32
  omega

/-- The sizing policy where it holds: for `0 < in_length <= 214748364` the codec receives a
zeroed buffer of `in_length * 10` bytes from `compress_packet`, and for every positive
declared length `m` a zeroed buffer of `m` bytes from `decompress_packet`. -/
theorem working_buffer_capacity (c : CsCodes) (o : CsObjectInt) (avail : Nat → Bool)
    (src : List Byte) (n m : Int) (algorithm : Nat) (hn : 0 < n)
    (hsrc : n.toNat ≤ src.length) (h0 : avail 0 = true) (h1 : avail 1 = true) :
    (n ≤ 214748364 →
      (compress_packet c o avail (some src) n algorithm).calls
        = [CodecCall.compr n (src.take n.toNat) n (zeroed (n * 10)) (n * 10)
            (compress_option c algorithm)] ∧
      (zeroed (n * 10)) = List.replicate (n * 10).toNat 0 ∧ 0 < n * 10) ∧
    (0 < m →
      (decompress_packet c o avail (some src) n m).calls
        = [CodecCall.decompr (src.take n.toNat) n (zeroed m) m c.CS_INIT_DECOMPRESS] ∧
      zeroed m = List.replicate m.toNat 0) := by
  constructor
  · intro hmax
    have hcap : to_int32 (n * MEMORY_ALLOC_FACTOR) = n * 10 := by
      unfold MEMORY_ALLOC_FACTOR
      exact to_int32_of_range _ (by omega) (by unfold INT_MAX; omega)
    have h := compress_packet_reaches c o avail src n algorithm hn hsrc h0 h1
      (by rw [hcap]; omega)
    rw [hcap] at h
    rw [h, interpret_calls]
    exact ⟨rfl, rfl, by omega⟩
  · intro hm
    rw [decompress_packet_reaches c o avail src n m hn hm hsrc h0 h1, interpret_calls]
    exact ⟨rfl, rfl⟩

/-- The call `compress_packet` makes on an input of exactly `n` bytes. -/
theorem compress_call_of_length (c : CsCodes) (o : CsObjectInt) (src : List Byte) (n : Nat)
    (algorithm : Nat) (cap : Int) (hlen : src.length = n) (hn : 0 < n)
    (hcap : to_int32 ((n : Int) * MEMORY_ALLOC_FACTOR) = cap) (hpos : 0 ≤ cap) :
    (compress_packet c o always (some src) n algorithm).calls
      = [CodecCall.compr n src n (zeroed cap) cap (compress_option c algorithm)] := by
  have hsrc : (n : Int).toNat ≤ src.length := by simp [hlen]
  have h := compress_packet_reaches c o always src n algorithm (by omega) hsrc rfl rfl
    (by rw [hcap]; exact hpos)
  rw [h, interpret_calls, hcap]
  have : List.take (n : Int).toNat src = src := by
    rw [Int.toNat_ofNat, ← hlen, List.take_length]
  rw [this]

/-- C9, the sizing policy evaluated at `in_length = 429496730`: the product
`in_length * 10 = 4294967300` does not fit the 32-bit `SAP_INT`, and the codec is handed a
working output buffer of `4` bytes for an input of 429496730 bytes. -/
theorem compress_capacity_wraps (c : CsCodes) (o : CsObjectInt) (algorithm : Nat) :
    (compress_packet c o always (some (List.replicate 429496730 byteA)) 429496730
        algorithm).calls
      = [CodecCall.compr 429496730 (List.replicate 429496730 byteA) 429496730 (zeroed 4) 4
          (compress_option c algorithm)] ∧
    (429496730 : Int) * MEMORY_ALLOC_FACTOR = 4294967300 ∧
    ((zeroed 4).length : Int) ≠ 429496730 * MEMORY_ALLOC_FACTOR :=
  ⟨compress_call_of_length c o (List.replicate 429496730 byteA) 429496730 algorithm 4
      (List.length_replicate _ _) (by decide) (by decide) (by decide),
    by decide, by decide⟩

/-! ## C8: round trip -/

theorem emit_fits (done full : Int) (data : List Byte) (inlen : Int) (outbuf : List Byte)
    (outlen : Int) (h : (data.length : Int) ≤ outlen) :
    emit done full data inlen outbuf outlen
      = ⟨done, inlen, data.length, data ++ outbuf.drop data.length⟩ := by
  simp [emit, h]

/-- For either supported algorithm the engine built from an abstract pair emits one of the
pair's two compressed forms. -/
theorem engine_of_compr_supported (c : CsCodes) (k : AbstractCodec) (algorithm : Int)
    (halg : algorithm = c.CS_LZC ∨ algorithm = c.CS_LZH) (sumlen : Int) (inbuf : List Byte)
    (inlen : Int) (outbuf : List Byte) (outlen : Int) :
    ∃ lzh, (engine_of c k).CsCompr sumlen inbuf inlen outbuf outlen
        (compress_option c (to_uint32 algorithm))
      = emit c.CS_END_OF_STREAM c.CS_END_OUTBUFFER (k.enc lzh (inbuf.take inlen.toNat))
          inlen outbuf outlen := by
  by_cases h1 : compress_option c (to_uint32 algorithm) = compress_option c (to_uint32 c.CS_LZC)
  · exact ⟨false, by simp [engine_of, h1]⟩
  · rcases halg with h | h
    · exact absurd (by rw [h]) h1
    · subst h
      exact ⟨true, by simp [engine_of, h1]⟩

/-- One successful interpretation of output that fits the working buffer. -/
theorem interpret_emitted (c : CsCodes) (avail : Nat → Bool) (calls : List CodecCall)
    (data : List Byte) (inlen : Int) (outbuf : List Byte) (len0 : Int)
    (h2 : avail 2 = true) :
    (interpret_result c avail ⟨2, 2, 0⟩ calls
        ⟨c.CS_END_OF_STREAM, inlen, data.length, data ++ outbuf.drop data.length⟩ len0).outcome
      = .returned c.CS_END_OF_STREAM (some data) data.length := by
  have hs : is_success c c.CS_END_OF_STREAM = true := (is_success_iff c _).mpr (Or.inl rfl)
  rw [interpret_success c avail _ _ _ _ hs h2 (by simp) (by simp)]
  simp

/-- C8, counterexample: the store pair's decompression inverts its compression, yet for the
empty byte sequence the round trip fails for both algorithms and every `K`, because
`compress` of the empty sequence stops at the input-length check and raises `CompressError`
instead of returning bytes. -/
theorem empty_input_has_no_round_trip :
    store_codec.Inverts ∧
    (pysapcompress_compress sapCodes store_engine always [] sapCodes.CS_LZC).result
      = .error "pysapcompress.CompressError" "Compression error (invalid input length)" ∧
    (pysapcompress_compress sapCodes store_engine always [] sapCodes.CS_LZH).result
      = .error "pysapcompress.CompressError" "Compression error (invalid input length)" ∧
    (∀ K, ¬ RoundTrip sapCodes store_engine always [] sapCodes.CS_LZC K) ∧
    (∀ K, ¬ RoundTrip sapCodes store_engine always [] sapCodes.CS_LZH K) := by
  have h1 : (pysapcompress_compress sapCodes store_engine always [] sapCodes.CS_LZC).result
      = .error "pysapcompress.CompressError" "Compression error (invalid input length)" := by
    decide
  have h2 : (pysapcompress_compress sapCodes store_engine always [] sapCodes.CS_LZH).result
      = .error "pysapcompress.CompressError" "Compression error (invalid input length)" := by
    decide
  refine ⟨?_, h1, h2, ?_, ?_⟩
  · intro lzh b
    rfl
  · rintro K ⟨s, len, z, h, _⟩
    rw [h1] at h
    cases h
  · rintro K ⟨s, len, z, h, _⟩
    rw [h2] at h
    cases h

/-- C8, amended: let the codec engine be built from an abstract pair whose decompression
inverts its compression, under a header whose `CS_END_OF_STREAM` is not negative, and let all
allocations succeed. For every non-empty byte sequence `b` with `len(b) * 10 <= INT_MAX`
whose compressed form is non-empty and fits the working buffer of `len(b) * 10` bytes, for
either supported algorithm and every `K >= 1` with `len(b) * K <= INT_MAX`:
`compress(b, a)` returns `(CS_END_OF_STREAM, len(z), z)` for a compressed form `z` of `b`,
and `decompress(z, len(b) * K)` returns `(CS_END_OF_STREAM, len(b), b)`. -/
theorem round_trip_of_fitting_input (c : CsCodes) (k : AbstractCodec) (avail : Nat → Bool)
    (b : List Byte) (algorithm : Int) (K : Nat)
    (hinv : k.Inverts) (hstream : 0 ≤ c.CS_END_OF_STREAM)
    (h0 : avail 0 = true) (h1 : avail 1 = true) (h2 : avail 2 = true)
    (halg : algorithm = c.CS_LZC ∨ algorithm = c.CS_LZH) (hfa : fits_int algorithm = true)
    (hb : b ≠ []) (hlen : (b.length : Int) * MEMORY_ALLOC_FACTOR ≤ INT_MAX)
    (henc : ∀ lzh, k.enc lzh b ≠ [] ∧
      ((k.enc lzh b).length : Int) ≤ (b.length : Int) * MEMORY_ALLOC_FACTOR)
    (hK : 1 ≤ K) (hKmax : (b.length : Int) * K ≤ INT_MAX) :
    (∃ lzh,
      (pysapcompress_compress c (engine_of c k) avail b algorithm).result
        = .value c.CS_END_OF_STREAM (k.enc lzh b).length (some (k.enc lzh b)) ∧
      (pysapcompress_decompress c (engine_of c k) avail (k.enc lzh b)
          ((b.length : Int) * K)).result
        = .value c.CS_END_OF_STREAM b.length (some b)) ∧
    RoundTrip c (engine_of c k) avail b algorithm K := by
  have hbpos : 0 < b.length := List.length_pos.mpr hb
  have hn : (0 : Int) < b.length := by omega
  have hmax : (b.length : Int) ≤ INT_MAX := by
    unfold MEMORY_ALLOC_FACTOR at hlen
    omega
  have hcap : to_int32 ((b.length : Int) * MEMORY_ALLOC_FACTOR)
      = (b.length : Int) * MEMORY_ALLOC_FACTOR :=
    to_int32_of_range _ (by unfold MEMORY_ALLOC_FACTOR; omega) hlen
  have htake : ∀ l : List Byte, l.take (l.length : Int).toNat = l := by
    intro l; simp
  have hsrc : ∀ l : List Byte, (l.length : Int).toNat ≤ l.length := by
    intro l; simp
  -- compression
  have hrunC := compress_packet_reaches c (engine_of c k) avail b b.length
    (to_uint32 algorithm) hn (hsrc b) h0 h1 (by rw [hcap]; unfold MEMORY_ALLOC_FACTOR; omega)
  obtain ⟨lzh, hcall⟩ := engine_of_compr_supported c k algorithm halg b.length
    (b.take (b.length : Int).toNat) b.length
    (zeroed (to_int32 ((b.length : Int) * MEMORY_ALLOC_FACTOR)))
    (to_int32 ((b.length : Int) * MEMORY_ALLOC_FACTOR))
  obtain ⟨hzne, hzfit⟩ := henc lzh
  rw [htake b] at hrunC
  rw [htake b, htake b] at hcall
  rw [hcall, emit_fits _ _ (k.enc lzh b) _ _ _ (by rw [hcap]; exact hzfit)] at hrunC
  have hC : (pysapcompress_compress c (engine_of c k) avail b algorithm).result
      = .value c.CS_END_OF_STREAM (k.enc lzh b).length (some (k.enc lzh b)) := by
    rw [pysapcompress_compress_parsed c _ avail b algorithm hmax hfa, hrunC,
      interpret_emitted c avail _ _ _ _ _ h2,
      py_result_nonnegative c _ _ _ _ _ hstream]
    simp [build_bytes]
  -- decompression
  have hzpos : 0 < (k.enc lzh b).length := List.length_pos.mpr hzne
  have hM : (0 : Int) < (b.length : Int) * K := by positivity
  have hfM : fits_int ((b.length : Int) * K) = true := by
    have : INT_MIN ≤ (b.length : Int) * K := by unfold INT_MIN; omega
    simp [fits_int, this, hKmax]
  have hrunD := decompress_packet_reaches c (engine_of c k) avail (k.enc lzh b)
    (k.enc lzh b).length ((b.length : Int) * K) (by omega) hM (hsrc _) h0 h1
  have hdec : (engine_of c k).CsDecompr (k.enc lzh b) (k.enc lzh b).length
      (zeroed ((b.length : Int) * K)) ((b.length : Int) * K) c.CS_INIT_DECOMPRESS
      = emit c.CS_END_OF_STREAM c.CS_END_OUTBUFFER b (k.enc lzh b).length
          (zeroed ((b.length : Int) * K)) ((b.length : Int) * K) := by
    simp [engine_of, hinv lzh b]
  have hbfit : (b.length : Int) ≤ (b.length : Int) * K := by
    have : (1 : Int) ≤ K := by omega
    nlinarith
  rw [htake, hdec, emit_fits _ _ _ _ _ _ hbfit] at hrunD
  have hD : (pysapcompress_decompress c (engine_of c k) avail (k.enc lzh b)
      ((b.length : Int) * K)).result = .value c.CS_END_OF_STREAM b.length (some b) := by
    rw [pysapcompress_decompress_parsed c _ avail _ _
        (by unfold MEMORY_ALLOC_FACTOR at hzfit hlen; omega) hfM, hrunD,
      interpret_emitted c avail _ _ _ _ _ h2,
      py_result_nonnegative c _ _ _ _ _ hstream]
    simp [build_bytes]
  exact ⟨⟨lzh, hC, hD⟩, _, _, _, hC, _, (is_success_iff c _).mpr (Or.inl rfl), hD⟩

/-- C8, witness: the store engine on the two bytes `[0x41, 0x42]` with `CS_LZH` and
`K = 3`. -/
theorem round_trip_of_fitting_input_witness :
    RoundTrip sapCodes store_engine always [byteA, 0x42] 2 3 :=
  (round_trip_of_fitting_input sapCodes store_codec always [byteA, 0x42] 2 3
    (fun _ _ => rfl) (by decide) rfl rfl rfl (Or.inr rfl) (by decide) (by decide) (by decide)
    (by decide) (by decide) (by decide)).2

end PySapCompress
